import Mathlib

/-!
# Verification of the prediction-lifecycle / scoring core of `cupa-mondiala-2026`

Shallow embedding of the business-logic layer (`src/db/queries.ts`, the
server actions in `src/app/actions/predictions.ts` and
`src/app/actions/admin.ts`, and the Zod layer `src/lib/validations.ts`)
of the World Cup 2026 prediction game.

Database rows are embedded as Lean structures, the persistent store as a
`DBState` record of row lists plus the per-user running totals, and every
Drizzle query/mutation is translated into an explicit state-passing
function.  Fallible operations return `Except String`, mirroring the
`throw new Error(...)` paths of the source.  JavaScript numbers appearing
as user input are embedded as `ℚ` where integrality is checked
(`Number.isInteger`), and as `ℤ` once validated.
-/

namespace WC2026

/-- Match lifecycle status (`status` column of the `matches` table:
`"scheduled" | "live" | "finished"`). -/
inductive MatchStatus
  | scheduled
  | live
  | finished
  deriving DecidableEq, Repr

/-- Outcome code of a score pair (`result` column: `'1' | 'X' | '2'`,
called HOME / DRAW / AWAY in the spec). -/
inductive ResultCode
  | home
  | draw
  | away
  deriving DecidableEq, Repr

/-- A row of the `matches` table (the spec's Fixture), with the fields the
verified operations read.  Team references are nullable in the schema
(bracket placeholders), hence `Option Nat`.  `stageSlug` and
`stageMultiplier` stand for the joined `tournament_stages` row
(`slug`, `pointsMultiplier`). -/
structure MatchRow where
  id : Nat
  stageSlug : String
  stageMultiplier : ℚ
  homeTeamId : Option Nat
  awayTeamId : Option Nat
  scheduledAt : Int
  status : MatchStatus
  homeScore : Option Int
  awayScore : Option Int
  deriving DecidableEq, Repr

/-- A row of the `predictions` table. -/
structure PredictionRow where
  id : Nat
  userId : String
  matchId : Nat
  homeScore : Int
  awayScore : Int
  result : ResultCode
  pointsEarned : Option Int
  isLocked : Bool
  deriving DecidableEq, Repr

/-- A row of the `teams` table (fields used by the standings view). -/
structure TeamRow where
  id : Nat
  name : String
  groupLetter : String
  deriving DecidableEq, Repr

/-- The persistent store: `matches` and `predictions` tables, the
`totalPoints` column of the `users` table (as a total map, every user
starting at 0), and the identity counter backing the predictions primary
key (`generatedAlwaysAsIdentity`). -/
structure DBState where
  matchRows : List MatchRow
  preds : List PredictionRow
  totals : String → Int
  nextPredId : Nat

/-- `calculateResult` (queries.ts:59-66): `'1'` if home wins, `'X'` on a
draw, `'2'` otherwise. -/
def calculateResult (homeScore awayScore : Int) : ResultCode :=
  if homeScore > awayScore then .home
  else if homeScore = awayScore then .draw
  else .away

/-- `calculatePoints` (queries.ts:75-96): 3 for the exact score, 1 for the
correct result code, 0 otherwise.  (The doc comment of the source claims a
stage multiplier is applied; the function body applies none.) -/
def calculatePoints (predictedHome predictedAway actualHome actualAway : Int) : Int :=
  if predictedHome = actualHome ∧ predictedAway = actualAway then 3
  else if calculateResult predictedHome predictedAway = calculateResult actualHome actualAway then 1
  else 0

/-- Lookup of a match row by id (`db.query.matches.findFirst({where: eq(matches.id, _)})`). -/
def findMatch (s : DBState) (matchId : Nat) : Option MatchRow :=
  s.matchRows.find? (fun m => m.id == matchId)

/-- Lookup of a prediction row by primary key. -/
def findPredById (s : DBState) (predictionId : Nat) : Option PredictionRow :=
  s.preds.find? (fun p => p.id == predictionId)

/-- Lookup of a prediction row by the (userId, matchId) pair. -/
def findPredByUserMatch (s : DBState) (userId : String) (matchId : Nat) :
    Option PredictionRow :=
  s.preds.find? (fun p => p.userId == userId && p.matchId == matchId)

/-- The `points` computed for one prediction row against the final score
(the call at queries.ts:127-132). -/
def predPoints (matchHome matchAway : Int) (p : PredictionRow) : Int :=
  calculatePoints p.homeScore p.awayScore matchHome matchAway

/-- The `.set({ pointsEarned: points })` write of the scoring loop. -/
def setPts (pts : Int) (q : PredictionRow) : PredictionRow :=
  { q with pointsEarned := some pts }

/-- One iteration of the scoring loop of `calculatePointsForMatch`
(queries.ts:126-151): compute points from the snapshot row `p` and the
final score, persist `pointsEarned` on the row with `p.id`, and increment
the owning user's `totalPoints` by the points (`totalPoints + points`). -/
def scoreStep (matchHome matchAway : Int) (s : DBState) (p : PredictionRow) : DBState :=
  let points := predPoints matchHome matchAway p
  { s with
    preds := s.preds.map (fun q =>
      if q.id == p.id then setPts points q else q),
    totals := fun u => if u = p.userId then s.totals u + points else s.totals u }

/-- `calculatePointsForMatch` (queries.ts:103-154): requires the match to
exist, be `finished`, and have both scores set; then scores every
prediction of the match and returns how many predictions were processed. -/
def calculatePointsForMatch (s : DBState) (matchId : Nat) :
    Except String (DBState × Nat) :=
  match findMatch s matchId with
  | none => .error "Match is not finished or does not exist"
  | some m =>
    if m.status ≠ .finished then .error "Match is not finished or does not exist"
    else
      match m.homeScore, m.awayScore with
      | some mh, some ma =>
        let matchPredictions := s.preds.filter (fun p => p.matchId == matchId)
        .ok (matchPredictions.foldl (scoreStep mh ma) s, matchPredictions.length)
      | _, _ => .error "Match scores are not set"

/-- The `predictionData` object built by `upsertPrediction`
(queries.ts:192-200) applied over a row: new scores, freshly derived
result code, `isLocked: false`, `pointsEarned: null`. -/
def upsertApply (homeScore awayScore : Int) (p : PredictionRow) : PredictionRow :=
  { p with
    homeScore := homeScore, awayScore := awayScore,
    result := calculateResult homeScore awayScore,
    isLocked := false, pointsEarned := none }

/-- `upsertPrediction` (queries.ts:160-223): create or update the single
prediction for (userId, matchId).  Preconditions: the match exists and has
`scheduled` status, and an existing prediction must not carry the
persisted lock flag.  The written row always carries the freshly derived
result code, `isLocked := false` and `pointsEarned := null` (the TS code
spreads the full `predictionData` object into both the update and the
insert). -/
def upsertPrediction (s : DBState) (userId : String) (matchId : Nat)
    (homeScore awayScore : Int) : Except String (DBState × PredictionRow) :=
  match findMatch s matchId with
  | none => .error "Match not found"
  | some m =>
    if m.status ≠ .scheduled then
      .error "Cannot predict for a match that has started or finished"
    else
      match findPredByUserMatch s userId matchId with
      | some existing =>
        if existing.isLocked then
          .error "Prediction is locked and cannot be modified"
        else
          .ok ({ s with preds := s.preds.map (fun p =>
                  if p.id == existing.id then upsertApply homeScore awayScore p
                  else p) },
               upsertApply homeScore awayScore existing)
      | none =>
        let inserted : PredictionRow :=
          { id := s.nextPredId, userId := userId, matchId := matchId,
            homeScore := homeScore, awayScore := awayScore,
            result := calculateResult homeScore awayScore,
            pointsEarned := none, isLocked := false }
        .ok ({ s with
               preds := s.preds ++ [inserted],
               nextPredId := s.nextPredId + 1 },
             inserted)

/-- The partial-update record passed to `adminUpdatePrediction`.  The outer
`Option` is JavaScript `undefined` (field not provided — Drizzle skips the
column); for `pointsEarned` the inner `Option` is SQL `null`. -/
structure PredUpdates where
  homeScore : Option Int := none
  awayScore : Option Int := none
  pointsEarned : Option (Option Int) := none
  isLocked : Option Bool := none
  deriving DecidableEq, Repr

/-- The result-code recomputation of `adminUpdatePrediction`
(queries.ts:605-613): recomputed from whichever scores are provided,
falling back to the stored ones; kept unchanged if neither score is
provided. -/
def adminResult (existing : PredictionRow) (u : PredUpdates) : ResultCode :=
  match u.homeScore, u.awayScore with
  | some h, some a => calculateResult h a
  | some h, none => calculateResult h existing.awayScore
  | none, some a => calculateResult existing.homeScore a
  | none, none => existing.result

/-- The `.set({ ...updates, result })` write of `adminUpdatePrediction`
(queries.ts:616-624): provided fields overwrite, absent (undefined) fields
are skipped by Drizzle. -/
def adminApply (u : PredUpdates) (result : ResultCode) (p : PredictionRow) :
    PredictionRow :=
  { p with
    homeScore := u.homeScore.getD p.homeScore,
    awayScore := u.awayScore.getD p.awayScore,
    pointsEarned := u.pointsEarned.getD p.pointsEarned,
    isLocked := u.isLocked.getD p.isLocked,
    result := result }

/-- `adminUpdatePrediction` (queries.ts:587-645): partial update of a
prediction by id, recomputing the result code when a score field is
provided; if `pointsEarned` is provided and differs from the stored value,
the user's `totalPoints` gets the compensating delta
`(new ?? 0) - (old ?? 0)`.  No lock check is performed. -/
def adminUpdatePrediction (s : DBState) (predictionId : Nat) (u : PredUpdates) :
    Except String (DBState × PredictionRow) :=
  match findPredById s predictionId with
  | none => .error "Prediction not found"
  | some existing =>
    let result := adminResult existing u
    let s1 : DBState :=
      { s with preds := s.preds.map (fun p =>
          if p.id == existing.id then adminApply u result p else p) }
    let s2 : DBState :=
      match u.pointsEarned with
      | none => s1
      | some newVal =>
        if newVal = existing.pointsEarned then s1
        else
          let pointsDiff := newVal.getD 0 - existing.pointsEarned.getD 0
          { s1 with totals := fun v =>
              if v = existing.userId then s1.totals v + pointsDiff else s1.totals v }
    .ok (s2, adminApply u result existing)

/-- `adminDeletePrediction` (queries.ts:651-676): subtract the row's
points from the user's total when `pointsEarned` is non-null and positive,
then delete the row. -/
def adminDeletePrediction (s : DBState) (predictionId : Nat) :
    Except String (DBState × PredictionRow) :=
  match findPredById s predictionId with
  | none => .error "Prediction not found"
  | some p =>
    let s1 : DBState :=
      match p.pointsEarned with
      | some pts =>
        if pts > 0 then
          { s with totals := fun v =>
              if v = p.userId then s.totals v - pts else s.totals v }
        else s
      | none => s
    .ok ({ s1 with preds := s1.preds.filter (fun q => !(q.id == predictionId)) }, p)

/-- `adminDeleteAllPredictions` (queries.ts:682-752), the spec's
`resetAllPredictions`: delete every prediction, reset every user's total
to 0, and optionally revert every match to `scheduled` with null scores.
(The leaderboard-snapshot clearing is outside the verified state.) -/
def adminDeleteAllPredictions (s : DBState) (resetMatchResults : Bool) : DBState :=
  let s1 : DBState := { s with preds := [], totals := fun _ => 0 }
  if resetMatchResults then
    { s1 with matchRows := s1.matchRows.map (fun m =>
        { m with homeScore := none, awayScore := none, status := .scheduled }) }
  else s1

/-- `updateMatchResult` (queries.ts:564-581): set scores and status on the
match row. -/
def updateMatchResult (s : DBState) (matchId : Nat) (homeScore awayScore : Int)
    (status : MatchStatus) : DBState :=
  { s with matchRows := s.matchRows.map (fun m =>
      if m.id == matchId then
        { m with homeScore := some homeScore, awayScore := some awayScore,
                 status := status }
      else m) }

/-- `lockPredictionsForMatch` (queries.ts:19-26): set the persisted lock
flag on every prediction of the match. -/
def lockPredictionsForMatch (s : DBState) (matchId : Nat) : DBState :=
  { s with preds := s.preds.map (fun p =>
      if p.matchId == matchId then { p with isLocked := true } else p) }

/-- The score validation performed inline by the `submitPrediction` server
action (src/app/actions/predictions.ts:20-27): reject negative values,
then reject non-integers (`Number.isInteger`).  Inputs are JavaScript
numbers, embedded as `ℚ`; integrality is `den = 1`.  Note: no upper bound
is checked on this path (the Zod `scoreSchema` of validations.ts caps
scores at 20 but is not applied here). -/
def submitValidationError (homeScore awayScore : ℚ) : Option String :=
  if homeScore < 0 ∨ awayScore < 0 then some "Scores must be non-negative"
  else if ¬(homeScore.den = 1) ∨ ¬(awayScore.den = 1) then some "Scores must be whole numbers"
  else none

/-- `submitPrediction` (src/app/actions/predictions.ts): validate the raw
scores, then delegate to `upsertPrediction`.  The authentication step and
the group-stage eligibility gate (`canUserPredictGroupStage`, whose source
is not part of the analysed tree) are outside the embedded state, so this
models the path for an authenticated user on a non-gated fixture. -/
def submitPrediction (s : DBState) (userId : String) (matchId : Nat)
    (homeScore awayScore : ℚ) : Except String (DBState × PredictionRow) :=
  match submitValidationError homeScore awayScore with
  | some e => .error e
  | none => upsertPrediction s userId matchId homeScore.num awayScore.num

/-- `updatePredictionAdminSchema` (validations.ts:64-70): partial admin
updates must carry scores in [0, 20] and `pointsEarned` in [0, 3] or null. -/
def validAdminUpdates (u : PredUpdates) : Prop :=
  (∀ h, u.homeScore = some h → 0 ≤ h ∧ h ≤ 20) ∧
  (∀ a, u.awayScore = some a → 0 ≤ a ∧ a ≤ 20) ∧
  (∀ v k, u.pointsEarned = some v → v = some k → 0 ≤ k ∧ k ≤ 3)

/-- Modelled from the spec (§4.2), for comparison only: the pure locking
decision `isLocked(prediction, fixture, now) = prediction.isLocked OR
fixture.status != scheduled OR now >= fixture.scheduledAt`.  No function of
the source computes this three-way disjunction; `upsertPrediction` checks
only the first two disjuncts. -/
def specIsLockedState (predLocked : Bool) (status : MatchStatus)
    (scheduledAt now : Int) : Prop :=
  predLocked = true ∨ status ≠ .scheduled ∨ now ≥ scheduledAt

/-- The contribution of one prediction row to user `u`'s point sum:
`pointsEarned ?? 0` when the row belongs to `u`, else 0. -/
def contrib (u : String) (p : PredictionRow) : Int :=
  if p.userId = u then p.pointsEarned.getD 0 else 0

/-- Sum of the non-null `pointsEarned` values over user `u`'s predictions
in the list (null contributing 0). -/
def sumPts (u : String) (l : List PredictionRow) : Int :=
  (l.map (contrib u)).sum

/-- The points freshly computed for user `u`'s predictions on `matchId`
when it is scored against the final score `(mh, ma)`. -/
def freshPointsFor (s : DBState) (matchId : Nat) (mh ma : Int) (u : String) : Int :=
  ((s.preds.filter (fun p => p.matchId == matchId && p.userId == u)).map
    (fun p => calculatePoints p.homeScore p.awayScore mh ma)).sum

/-! ## Group standings (`getGroupStandings`, queries.ts:810-907) -/

/-- One standing entry as built by `getGroupStandings`. -/
structure TeamStanding where
  teamId : Nat
  played : Int
  won : Int
  drawn : Int
  lost : Int
  goalsFor : Int
  goalsAgainst : Int
  goalDifference : Int
  points : Int
  deriving DecidableEq, Repr

/-- The zeroed accumulator of the stats loop (queries.ts:839-844). -/
def initialStanding (teamId : Nat) : TeamStanding :=
  { teamId := teamId, played := 0, won := 0, drawn := 0, lost := 0,
    goalsFor := 0, goalsAgainst := 0, goalDifference := 0, points := 0 }

/-- One iteration of the `groupMatches.forEach` stats loop
(queries.ts:846-880): skip matches with a null score or not involving the
team; otherwise count the appearance, accumulate goals from the team's
side, and tally win/draw/loss. -/
def statStep (teamId : Nat) (acc : TeamStanding) (m : MatchRow) : TeamStanding :=
  match m.homeScore, m.awayScore with
  | some mh, some ma =>
    let isHome := m.homeTeamId = some teamId
    let isAway := m.awayTeamId = some teamId
    if ¬isHome ∧ ¬isAway then acc
    else
      let acc1 := { acc with played := acc.played + 1 }
      if isHome then
        let acc2 := { acc1 with goalsFor := acc1.goalsFor + mh,
                                goalsAgainst := acc1.goalsAgainst + ma }
        if mh > ma then { acc2 with won := acc2.won + 1 }
        else if mh = ma then { acc2 with drawn := acc2.drawn + 1 }
        else { acc2 with lost := acc2.lost + 1 }
      else
        let acc2 := { acc1 with goalsFor := acc1.goalsFor + ma,
                                goalsAgainst := acc1.goalsAgainst + mh }
        if ma > mh then { acc2 with won := acc2.won + 1 }
        else if ma = mh then { acc2 with drawn := acc2.drawn + 1 }
        else { acc2 with lost := acc2.lost + 1 }
  | _, _ => acc

/-- The full stats record for one team (queries.ts:838-896): run the loop,
then derive `goalDifference = goalsFor - goalsAgainst` and
`points = won * 3 + drawn * 1`. -/
def teamStanding (team : TeamRow) (groupMatches : List MatchRow) : TeamStanding :=
  let acc := groupMatches.foldl (statStep team.id) (initialStanding team.id)
  { acc with goalDifference := acc.goalsFor - acc.goalsAgainst,
             points := acc.won * 3 + acc.drawn * 1 }

/-- The JS sort comparator of `getGroupStandings` (queries.ts:899-904)
turned into the "may precede" relation used by a stable sort:
`standingLE a b` iff `comparator(a, b) ≤ 0`, i.e. points descending, then
goal difference descending, then goals-for descending. -/
def standingLE (a b : TeamStanding) : Bool :=
  if a.points ≠ b.points then decide (b.points < a.points)
  else if a.goalDifference ≠ b.goalDifference then
    decide (b.goalDifference < a.goalDifference)
  else decide (b.goalsFor ≤ a.goalsFor)

/-- `getTeamsByGroup` (queries.ts:776-781): the teams carrying the group
letter.  (The store returns them ordered by name; the embedding keeps the
order of the given list, which stands for that ordering.) -/
def getTeamsByGroup (teams : List TeamRow) (groupLetter : String) : List TeamRow :=
  teams.filter (fun t => t.groupLetter == groupLetter)

/-- `getGroupStandings` (queries.ts:810-907): take the group's teams,
fetch the finished group-stage matches touching the group (SQL
`homeTeamId IN ids OR awayTeamId IN ids`; a NULL side is never `IN`),
build each team's stats, and sort with the comparator.  JavaScript
`Array.prototype.sort` is stable (ES2019), embedded as a stable merge
sort. -/
def getGroupStandings (teams : List TeamRow) (matchRows : List MatchRow)
    (groupLetter : String) : List TeamStanding :=
  let groupTeams := getTeamsByGroup teams groupLetter
  let teamIds := groupTeams.map (fun t => t.id)
  let groupMatches := matchRows.filter (fun m =>
    m.stageSlug == "group_stage" &&
    decide (m.status = .finished) &&
    (m.homeTeamId.any (fun i => teamIds.contains i) ||
     m.awayTeamId.any (fun i => teamIds.contains i)))
  let standings := groupTeams.map (fun t => teamStanding t groupMatches)
  standings.mergeSort standingLE

/-! ## The operations of the core as a transition system

One transition per operation named by the spec's lifecycle: user
submission, the fixture-finish path of `updateMatchResultAction`
(admin.ts:15-62: set result, lock, score — scoring runs exactly at the
transition to `finished`, which the guard `m.status ≠ finished` encodes),
administrative correction/deletion (through the Zod layer of
validations.ts), and the bulk reset. -/

/-- An initial state: no predictions, every total 0 (users start at
`totalPoints = 0`), and distinct match ids (the unique primary key of the
fixture table; fixture setup itself is out of scope). -/
def Init (s : DBState) : Prop :=
  s.preds = [] ∧ s.totals = (fun _ => 0) ∧
  (s.matchRows.map (fun m => m.id)).Nodup

/-- One operation of the core. -/
inductive Step : DBState → DBState → Prop
  | submit (s : DBState) (userId : String) (matchId : Nat) (hs as_ : ℚ)
      (s1 : DBState) (r : PredictionRow)
      (h : submitPrediction s userId matchId hs as_ = .ok (s1, r)) :
      Step s s1
  | finishMatch (s : DBState) (matchId : Nat) (hs as_ : Int) (s3 : DBState)
      (n : Nat) (m : MatchRow)
      (hm : findMatch s matchId = some m) (hnotfin : m.status ≠ .finished)
      (hh : 0 ≤ hs ∧ hs ≤ 20) (ha : 0 ≤ as_ ∧ as_ ≤ 20)
      (hcalc : calculatePointsForMatch
        (lockPredictionsForMatch (updateMatchResult s matchId hs as_ .finished) matchId)
        matchId = .ok (s3, n)) :
      Step s s3
  | adminUpdate (s : DBState) (predictionId : Nat) (u : PredUpdates)
      (s1 : DBState) (r : PredictionRow) (hval : validAdminUpdates u)
      (h : adminUpdatePrediction s predictionId u = .ok (s1, r)) :
      Step s s1
  | adminDelete (s : DBState) (predictionId : Nat) (s1 : DBState)
      (r : PredictionRow)
      (h : adminDeletePrediction s predictionId = .ok (s1, r)) :
      Step s s1
  | resetAll (s : DBState) (resetResults : Bool) :
      Step s (adminDeleteAllPredictions s resetResults)

/-- The states reachable by the operations of the core. -/
inductive Reachable : DBState → Prop
  | init (s : DBState) (h : Init s) : Reachable s
  | step (s s' : DBState) (hr : Reachable s) (hs : Step s s') : Reachable s'

/-- The discipline the amended totals invariant needs: an administrative
update may change `pointsEarned` only on a prediction whose fixture is
already finished. -/
def adminPointsGuard (s : DBState) (predictionId : Nat) (u : PredUpdates) : Prop :=
  ∀ ex, findPredById s predictionId = some ex →
    ∀ v, u.pointsEarned = some v → v ≠ ex.pointsEarned →
      ∃ m, findMatch s ex.matchId = some m ∧ m.status = .finished

/-- `Step` with administrative `pointsEarned` changes restricted to
predictions of finished fixtures. -/
inductive StepG : DBState → DBState → Prop
  | submit (s : DBState) (userId : String) (matchId : Nat) (hs as_ : ℚ)
      (s1 : DBState) (r : PredictionRow)
      (h : submitPrediction s userId matchId hs as_ = .ok (s1, r)) :
      StepG s s1
  | finishMatch (s : DBState) (matchId : Nat) (hs as_ : Int) (s3 : DBState)
      (n : Nat) (m : MatchRow)
      (hm : findMatch s matchId = some m) (hnotfin : m.status ≠ .finished)
      (hh : 0 ≤ hs ∧ hs ≤ 20) (ha : 0 ≤ as_ ∧ as_ ≤ 20)
      (hcalc : calculatePointsForMatch
        (lockPredictionsForMatch (updateMatchResult s matchId hs as_ .finished) matchId)
        matchId = .ok (s3, n)) :
      StepG s s3
  | adminUpdate (s : DBState) (predictionId : Nat) (u : PredUpdates)
      (s1 : DBState) (r : PredictionRow) (hval : validAdminUpdates u)
      (hguard : adminPointsGuard s predictionId u)
      (h : adminUpdatePrediction s predictionId u = .ok (s1, r)) :
      StepG s s1
  | adminDelete (s : DBState) (predictionId : Nat) (s1 : DBState)
      (r : PredictionRow)
      (h : adminDeletePrediction s predictionId = .ok (s1, r)) :
      StepG s s1
  | resetAll (s : DBState) (resetResults : Bool) :
      StepG s (adminDeleteAllPredictions s resetResults)

/-- The states reachable under the guarded discipline. -/
inductive ReachableG : DBState → Prop
  | init (s : DBState) (h : Init s) : ReachableG s
  | step (s s' : DBState) (hr : ReachableG s) (hs : StepG s s') : ReachableG s'

/-- Structural invariant: primary keys and the (userId, matchId) unique
index are duplicate-free, and the identity counter is fresh. -/
structure SInv (s : DBState) : Prop where
  idsNodup : (s.preds.map (fun p => p.id)).Nodup
  pairsNodup : (s.preds.map (fun p => (p.userId, p.matchId))).Nodup
  matchIdsNodup : (s.matchRows.map (fun m => m.id)).Nodup
  idsLt : ∀ p ∈ s.preds, p.id < s.nextPredId

/-- Full invariant: the structural part, the totals/sum equation, null
points on predictions of unfinished fixtures, and non-negative points. -/
structure Inv (s : DBState) extends SInv s : Prop where
  totalsEq : ∀ u, s.totals u = sumPts u s.preds
  notFinishedNull : ∀ p ∈ s.preds, ∀ m, findMatch s p.matchId = some m →
    m.status ≠ .finished → p.pointsEarned = none
  ptsNonneg : ∀ p ∈ s.preds, 0 ≤ p.pointsEarned.getD 0

/-! ## The state transform used to check multiplier-independence of scoring -/

/-- Replace the stage multiplier seen by a match (the claim under test is
that scoring never reads it). -/
def setMultiplier (s : DBState) (matchId : Nat) (mult : ℚ) : DBState :=
  { s with matchRows := s.matchRows.map (fun m =>
      if m.id == matchId then { m with stageMultiplier := mult } else m) }

/-! ## Spec-side recount of the standings replay

These definitions follow the specification's wording for §4.7 group
standings ("+3 team points for a win, +1/+1 for a draw, 0 for a loss;
accumulate goals-for/goals-against") and are compared against the
source-translated `getGroupStandings`. -/

/-- The team won this fixture (needs both final scores present). -/
def teamWonMatch (teamId : Nat) (m : MatchRow) : Bool :=
  match m.homeScore, m.awayScore with
  | some mh, some ma =>
    (m.homeTeamId == some teamId && decide (ma < mh)) ||
    (m.awayTeamId == some teamId && decide (mh < ma))
  | _, _ => false

/-- The team drew this fixture. -/
def teamDrewMatch (teamId : Nat) (m : MatchRow) : Bool :=
  match m.homeScore, m.awayScore with
  | some mh, some ma =>
    (m.homeTeamId == some teamId || m.awayTeamId == some teamId) &&
      decide (mh = ma)
  | _, _ => false

/-- Goals the team scored in this fixture (0 if absent or unscored). -/
def teamGoalsFor (teamId : Nat) (m : MatchRow) : Int :=
  match m.homeScore, m.awayScore with
  | some mh, some ma =>
    if m.homeTeamId = some teamId then mh
    else if m.awayTeamId = some teamId then ma
    else 0
  | _, _ => 0

/-- Goals the team conceded in this fixture (0 if absent or unscored). -/
def teamGoalsAgainst (teamId : Nat) (m : MatchRow) : Int :=
  match m.homeScore, m.awayScore with
  | some mh, some ma =>
    if m.homeTeamId = some teamId then ma
    else if m.awayTeamId = some teamId then mh
    else 0
  | _, _ => 0

/-- The finished group-stage fixtures touching the group, exactly as
`getGroupStandings` selects them. -/
def groupFinishedMatches (teams : List TeamRow) (matchRows : List MatchRow)
    (groupLetter : String) : List MatchRow :=
  matchRows.filter (fun m =>
    m.stageSlug == "group_stage" &&
    decide (m.status = .finished) &&
    (m.homeTeamId.any (fun i => ((getTeamsByGroup teams groupLetter).map
        (fun t => t.id)).contains i) ||
     m.awayTeamId.any (fun i => ((getTeamsByGroup teams groupLetter).map
        (fun t => t.id)).contains i)))

/-- The spec-side ordering of standing entries: points descending, then
goal difference descending, then goals-for descending (ties allowed). -/
def specStandingOrder (a b : TeamStanding) : Prop :=
  b.points < a.points ∨
  (b.points = a.points ∧
    (b.goalDifference < a.goalDifference ∨
      (b.goalDifference = a.goalDifference ∧ b.goalsFor ≤ a.goalsFor)))

/-! ## Concrete fixtures used by witnesses and counterexamples -/

/-- A scheduled fixture, kickoff at instant 100. -/
def exM1 : MatchRow :=
  { id := 1, stageSlug := "round_16", stageMultiplier := 2,
    homeTeamId := some 10, awayTeamId := some 11, scheduledAt := 100,
    status := .scheduled, homeScore := none, awayScore := none }

/-- The same fixture once its result 2:1 has been entered. -/
def exM1fin : MatchRow :=
  { exM1 with status := .finished, homeScore := some 2, awayScore := some 1 }

/-- A live fixture without scores. -/
def exM2live : MatchRow :=
  { id := 2, stageSlug := "round_16", stageMultiplier := 2,
    homeTeamId := some 12, awayTeamId := some 13, scheduledAt := 50,
    status := .live, homeScore := none, awayScore := none }

/-- Empty store holding the scheduled fixture. -/
def exS0 : DBState :=
  { matchRows := [exM1], preds := [], totals := fun _ => 0, nextPredId := 0 }

/-- `u1` predicted 1:1 on fixture 1 (unlocked, unscored). -/
def exP11 : PredictionRow :=
  { id := 0, userId := "u1", matchId := 1, homeScore := 1, awayScore := 1,
    result := .draw, pointsEarned := none, isLocked := false }

/-- `u1`'s 1:1 prediction carrying an administratively set 3 points. -/
def exP11p : PredictionRow := { exP11 with pointsEarned := some 3 }

/-- `u1`'s 1:1 prediction, locked, already granted 1 point. -/
def exP11lock : PredictionRow :=
  { exP11 with pointsEarned := some 1, isLocked := true }

/-- `u2` predicted 2:1 on fixture 1. -/
def exP21 : PredictionRow :=
  { id := 1, userId := "u2", matchId := 1, homeScore := 2, awayScore := 1,
    result := .home, pointsEarned := none, isLocked := false }

/-- Store with `u1`'s open prediction. -/
def exS1 : DBState :=
  { matchRows := [exM1], preds := [exP11], totals := fun _ => 0, nextPredId := 1 }

/-- Store where an admin already set 3 points on the open prediction of a
still-scheduled fixture (reachable through `adminUpdatePrediction`). -/
def exSPts : DBState :=
  { matchRows := [exM1], preds := [exP11p],
    totals := fun v => if v = "u1" then 3 else 0, nextPredId := 1 }

/-- Store with a locked, scored prediction on a finished fixture. -/
def exSLock : DBState :=
  { matchRows := [exM1fin], preds := [exP11lock],
    totals := fun v => if v = "u1" then 1 else 0, nextPredId := 1 }

/-- Store with two open predictions on fixture 1, result 2:1 entered
(status finished), not yet scored. -/
def exSFin : DBState :=
  { matchRows := [exM1fin], preds := [exP11, exP21], totals := fun _ => 0,
    nextPredId := 2 }

/-- The 1:1 prediction rewritten to 2:2 by a resubmission. -/
def exP22 : PredictionRow :=
  { id := 0, userId := "u1", matchId := 1, homeScore := 2, awayScore := 2,
    result := .draw, pointsEarned := none, isLocked := false }

/-- End state of the invariant-violating trace: the resubmission reset
`pointsEarned` to null while `totalPoints` kept the administratively
granted 3. -/
def exSBroken : DBState :=
  { matchRows := [exM1], preds := [exP22],
    totals := fun v => if v = "u1" then 3 else 0, nextPredId := 1 }

/-- `u1` predicted 2:1 on fixture 1 (the exact final score). -/
def exPsub : PredictionRow :=
  { id := 0, userId := "u1", matchId := 1, homeScore := 2, awayScore := 1,
    result := .home, pointsEarned := none, isLocked := false }

/-- Store right after that submission. -/
def exSsub : DBState :=
  { matchRows := [exM1], preds := [exPsub], totals := fun _ => 0, nextPredId := 1 }

/-- The same prediction once the fixture finished 2:1 and was scored. -/
def exPscored : PredictionRow :=
  { exPsub with pointsEarned := some 3, isLocked := true }

/-- Store after the result entry, locking and scoring. -/
def exSscored : DBState :=
  { matchRows := [exM1fin], preds := [exPscored],
    totals := fun v => if v = "u1" then 3 else 0, nextPredId := 1 }

/-- Teams of group A used by the standings witness. -/
def exTA : TeamRow := { id := 10, name := "Ayona", groupLetter := "A" }

def exTB : TeamRow := { id := 11, name := "Borutia", groupLetter := "A" }

def exTC : TeamRow := { id := 12, name := "Coria", groupLetter := "A" }

/-- A finished group-stage fixture between two of the group's teams. -/
def exGM (i hteam ateam : Nat) (hsc asc : Int) : MatchRow :=
  { id := i, stageSlug := "group_stage", stageMultiplier := 1,
    homeTeamId := some hteam, awayTeamId := some ateam, scheduledAt := 0,
    status := .finished, homeScore := some hsc, awayScore := some asc }

/-! ## Helper lemmas about sums of points -/

lemma sumPts_nil (u : String) : sumPts u [] = 0 := rfl

lemma sumPts_cons (u : String) (p : PredictionRow) (l : List PredictionRow) :
    sumPts u (p :: l) = contrib u p + sumPts u l := by
  simp [sumPts]

lemma sumPts_append (u : String) (l1 l2 : List PredictionRow) :
    sumPts u (l1 ++ l2) = sumPts u l1 + sumPts u l2 := by
  simp [sumPts]

lemma map_ite_id_of_forall_false {α : Type} {l : List α} {c : α → Bool}
    {f : α → α} (h : ∀ x ∈ l, c x = false) :
    l.map (fun x => if c x then f x else x) = l := by
  induction l with
  | nil => rfl
  | cons a t ih =>
    have ha := h a (by simp)
    simp only [List.map_cons, ha, Bool.false_eq_true, if_false,
      ih (fun x hx => h x (by simp [hx]))]

/-- Updating, through the "update row by primary key" shape, the single
row `p` of a duplicate-free list changes the point sum by the
contribution delta of that row. -/
lemma sumPts_update_by_id {l : List PredictionRow} {p : PredictionRow}
    (g : PredictionRow → PredictionRow)
    (hnd : (l.map (fun q => q.id)).Nodup) (hp : p ∈ l) (u : String) :
    sumPts u (l.map (fun q => if q.id == p.id then g q else q)) =
      sumPts u l - contrib u p + contrib u (g p) := by
  induction l with
  | nil => cases hp
  | cons a t ih =>
    simp only [List.map_cons, List.nodup_cons, List.mem_map] at hnd
    rcases List.mem_cons.mp hp with rfl | hpt
    · have ht : ∀ q ∈ t, (q.id == p.id) = false := by
        intro q hq
        simp only [beq_eq_false_iff_ne, ne_eq]
        intro hqe
        exact hnd.1 ⟨q, hq, hqe⟩
      rw [List.map_cons, map_ite_id_of_forall_false ht]
      simp only [beq_self_eq_true, if_true, sumPts_cons]
      ring
    · have ha : (a.id == p.id) = false := by
        simp only [beq_eq_false_iff_ne, ne_eq]
        intro hae
        exact hnd.1 ⟨p, hpt, hae.symm⟩
      rw [List.map_cons]
      simp only [ha, Bool.false_eq_true, if_false, sumPts_cons, ih hnd.2 hpt]
      ring

/-- Deleting by primary key the single row `p` of a duplicate-free list
removes exactly its contribution from the point sum. -/
lemma sumPts_filter_out_id {l : List PredictionRow} {p : PredictionRow}
    (hnd : (l.map (fun q => q.id)).Nodup) (hp : p ∈ l) (u : String) :
    sumPts u (l.filter (fun q => !(q.id == p.id))) = sumPts u l - contrib u p := by
  induction l with
  | nil => cases hp
  | cons a t ih =>
    simp only [List.map_cons, List.nodup_cons, List.mem_map] at hnd
    rcases List.mem_cons.mp hp with rfl | hpt
    · have ht : t.filter (fun q => !(q.id == p.id)) = t := by
        apply List.filter_eq_self.mpr
        intro q hq
        simp only [Bool.not_eq_eq_eq_not, Bool.not_true, beq_eq_false_iff_ne, ne_eq]
        intro hqe
        exact hnd.1 ⟨q, hq, hqe⟩
      rw [List.filter_cons]
      simp only [beq_self_eq_true, Bool.not_true, Bool.false_eq_true, if_false, ht, sumPts_cons]
      ring
    · have ha : (a.id == p.id) = false := by
        simp only [beq_eq_false_iff_ne, ne_eq]
        intro hae
        exact hnd.1 ⟨p, hpt, hae.symm⟩
      rw [List.filter_cons]
      simp only [ha, Bool.not_false, if_true, sumPts_cons, ih hnd.2 hpt]
      ring

/-- Scoring every prediction of a match whose predictions were all unscored
adds exactly the fresh points to the sum. -/
lemma sumPts_scoreAll {l : List PredictionRow} {mid : Nat} {mh ma : Int}
    (hnull : ∀ p ∈ l, p.matchId = mid → p.pointsEarned = none) (u : String) :
    sumPts u (l.map (fun p => if p.matchId == mid then setPts (predPoints mh ma p) p else p)) =
      sumPts u l +
        ((l.filter (fun p => p.matchId == mid && p.userId == u)).map
          (fun p => predPoints mh ma p)).sum := by
  induction l with
  | nil => rfl
  | cons a t ih =>
    have ihh := ih (fun p hp => hnull p (by simp [hp]))
    by_cases hm : a.matchId = mid
    · have hnil : a.pointsEarned = none := hnull a (by simp) hm
      by_cases hu : a.userId = u
      · simp only [List.map_cons, List.filter_cons, hm, hu, beq_self_eq_true, Bool.and_self,
          if_true, sumPts_cons, ihh, List.map_cons, List.sum_cons]
        simp [contrib, setPts, hu, hnil]
        ring
      · have hub : (a.userId == u) = false := by simp [hu]
        simp only [List.map_cons, List.filter_cons, hm, beq_self_eq_true, hub, Bool.and_false,
          Bool.false_eq_true, if_false, if_true, sumPts_cons, ihh]
        simp [contrib, setPts, hu]
    · have hmb : (a.matchId == mid) = false := by simp [hm]
      simp only [List.map_cons, List.filter_cons, hmb, Bool.false_and,
        Bool.false_eq_true, if_false, sumPts_cons, ihh]
      ring

/-! ## Characterisation of the scoring loop -/

lemma setPts_id (pts : Int) (q : PredictionRow) : (setPts pts q).id = q.id := rfl

lemma foldl_scoreStep_matchRows (mh ma : Int) (l : List PredictionRow) (t : DBState) :
    (l.foldl (scoreStep mh ma) t).matchRows = t.matchRows := by
  induction l generalizing t with
  | nil => rfl
  | cons p l' ih => rw [List.foldl_cons, ih]; rfl

lemma foldl_scoreStep_nextPredId (mh ma : Int) (l : List PredictionRow) (t : DBState) :
    (l.foldl (scoreStep mh ma) t).nextPredId = t.nextPredId := by
  induction l generalizing t with
  | nil => rfl
  | cons p l' ih => rw [List.foldl_cons, ih]; rfl

/-- The scoring loop adds, to each user's total, the points of the
processed snapshot rows belonging to that user. -/
lemma foldl_scoreStep_totals (mh ma : Int) (l : List PredictionRow) (t : DBState)
    (u : String) :
    (l.foldl (scoreStep mh ma) t).totals u =
      t.totals u + ((l.filter (fun p => p.userId == u)).map
        (fun p => predPoints mh ma p)).sum := by
  induction l generalizing t with
  | nil => simp
  | cons p l' ih =>
    rw [List.foldl_cons, ih, List.filter_cons]
    by_cases h : p.userId = u
    · have hb : (p.userId == u) = true := by simp [h]
      rw [hb]
      simp only [if_true, List.map_cons, List.sum_cons, scoreStep]
      have hu : (u = p.userId) = True := by simp [h.symm]
      simp only [hu, if_true]
      ring
    · have hb : (p.userId == u) = false := by simp [h]
      rw [hb]
      simp only [Bool.false_eq_true, if_false, scoreStep]
      have hu : (u = p.userId) = False := eq_false (fun he => h he.symm)
      simp only [hu, if_false]

/-- The scoring loop acts on the prediction list as a fold of
update-by-primary-key passes. -/
lemma foldl_scoreStep_preds (mh ma : Int) (l : List PredictionRow) (t : DBState) :
    (l.foldl (scoreStep mh ma) t).preds =
      l.foldl (fun cur p => cur.map (fun q =>
        if q.id == p.id then setPts (predPoints mh ma p) q else q)) t.preds := by
  induction l generalizing t with
  | nil => rfl
  | cons p l' ih => rw [List.foldl_cons, List.foldl_cons, ih]; rfl

/-- A fold of update-by-primary-key passes over a duplicate-free base list,
with each processed row taken from the base, updates exactly the rows whose
id is processed — and updates them from their own fields. -/
lemma foldl_update_by_id (mh ma : Int) (l : List PredictionRow) :
    ∀ b : List PredictionRow, (∀ p ∈ l, p ∈ b) →
    ((b.map (fun p => p.id)).Nodup) → ((l.map (fun p => p.id)).Nodup) →
    l.foldl (fun cur p => cur.map (fun q =>
        if q.id == p.id then setPts (predPoints mh ma p) q else q)) b =
      b.map (fun q => if l.any (fun p => p.id == q.id) then
        setPts (predPoints mh ma q) q else q) := by
  induction l with
  | nil =>
    intro b _ _ _
    simp
  | cons p l' ih =>
    intro b hl hnd hlnd
    simp only [List.map_cons, List.nodup_cons, List.mem_map] at hlnd
    have hpb : p ∈ b := hl p (by simp)
    rw [List.foldl_cons]
    have hstep : (b.map (fun q =>
        if q.id == p.id then setPts (predPoints mh ma p) q else q)) =
        b.map (fun q =>
          if q.id == p.id then setPts (predPoints mh ma q) q else q) := by
      apply List.map_congr_left
      intro q hq
      by_cases hc : q.id = p.id
      · have hqp : q = p := List.inj_on_of_nodup_map hnd hq hpb hc
        rw [hqp]
      · simp [hc]
    rw [hstep]
    have hids : (b.map (fun q =>
        if q.id == p.id then setPts (predPoints mh ma q) q else q)).map
          (fun r => r.id) = b.map (fun r => r.id) := by
      rw [List.map_map]
      apply List.map_congr_left
      intro q _
      by_cases hc : q.id = p.id <;> simp [Function.comp, hc, setPts]
    have hnd1 : ((b.map (fun q =>
        if q.id == p.id then setPts (predPoints mh ma q) q else q)).map
          (fun r => r.id)).Nodup := by
      rw [hids]; exact hnd
    have hl1 : ∀ q ∈ l', q ∈ b.map (fun q =>
        if q.id == p.id then setPts (predPoints mh ma q) q else q) := by
      intro q hq
      have hqb : q ∈ b := hl q (by simp [hq])
      have hne : (q.id == p.id) = false := by
        simp only [beq_eq_false_iff_ne, ne_eq]
        intro he
        exact hlnd.1 ⟨q, hq, he⟩
      have hfix : (fun r : PredictionRow =>
          if r.id == p.id then setPts (predPoints mh ma r) r else r) q = q := by
        simp only [hne, Bool.false_eq_true, if_false]
      rw [← hfix]
      exact List.mem_map_of_mem _ hqb
    rw [ih _ hl1 hnd1 hlnd.2, List.map_map]
    apply List.map_congr_left
    intro q hq
    simp only [Function.comp]
    by_cases hc : q.id = p.id
    · have hany : l'.any (fun r => r.id == q.id) = false := by
        apply List.any_eq_false.mpr
        intro r hr
        simp only [beq_iff_eq]
        intro he
        exact hlnd.1 ⟨r, hr, by rw [he, hc]⟩
      have hcb : (q.id == p.id) = true := by simp [hc]
      rw [hcb]
      simp only [if_true]
      have hanycons : (p :: l').any (fun r => r.id == q.id) = true := by
        simp [List.any_cons, hc.symm]
      rw [hanycons]
      simp only [if_true]
      have hany2 : l'.any (fun r => r.id == (setPts (predPoints mh ma q) q).id) =
          false := by rw [setPts_id]; exact hany
      rw [hany2]
      simp [setPts]
    · have hcb : (q.id == p.id) = false := by simp [hc]
      rw [hcb]
      simp only [Bool.false_eq_true, if_false]
      have hpq : (p.id == q.id) = false := by
        simp only [beq_eq_false_iff_ne, ne_eq]
        exact fun he => hc he.symm
      have hanycons : (p :: l').any (fun r => r.id == q.id) =
          l'.any (fun r => r.id == q.id) := by
        simp [List.any_cons, hpq]
      rw [hanycons]

/-- Over a duplicate-free base list, a filtered sublist contains a row with
the id of a base row exactly when that base row satisfies the filter. -/
lemma filter_any_id {b : List PredictionRow} (hnd : (b.map (fun p => p.id)).Nodup)
    {c : PredictionRow → Bool} {q : PredictionRow} (hq : q ∈ b) :
    (b.filter c).any (fun p => p.id == q.id) = c q := by
  by_cases hc : c q
  · rw [hc]
    apply List.any_eq_true.mpr
    exact ⟨q, List.mem_filter.mpr ⟨hq, hc⟩, by simp⟩
  · rw [Bool.eq_false_iff.mpr hc]
    apply List.any_eq_false.mpr
    intro r hr
    simp only [beq_iff_eq]
    intro he
    have hrb : r ∈ b := List.mem_of_mem_filter hr
    have hrq : r = q := List.inj_on_of_nodup_map hnd hrb hq he
    subst hrq
    exact hc (List.of_mem_filter hr)

/-- Full effect of `calculatePointsForMatch`'s loop on the prediction
list: every prediction of the match gets the computed points, everything
else is untouched. -/
lemma calc_preds_eq (s : DBState) (mid : Nat) (mh ma : Int)
    (hnd : (s.preds.map (fun p => p.id)).Nodup) :
    ((s.preds.filter (fun p => p.matchId == mid)).foldl (scoreStep mh ma) s).preds =
      s.preds.map (fun p =>
        if p.matchId == mid then setPts (predPoints mh ma p) p else p) := by
  rw [foldl_scoreStep_preds]
  have hlnd : ((s.preds.filter (fun p => p.matchId == mid)).map
      (fun p => p.id)).Nodup :=
    ((List.filter_sublist s.preds).map (fun p => p.id)).nodup hnd
  rw [foldl_update_by_id mh ma _ s.preds
      (fun p hp => List.mem_of_mem_filter hp) hnd hlnd]
  apply List.map_congr_left
  intro q hq
  rw [filter_any_id hnd hq]


/-! ## Inversion of the fallible operations -/

lemma calc_ok_inv {s : DBState} {mid : Nat} {s1 : DBState} {n : Nat}
    (h : calculatePointsForMatch s mid = .ok (s1, n)) :
    ∃ m mh ma, findMatch s mid = some m ∧ m.status = .finished ∧
      m.homeScore = some mh ∧ m.awayScore = some ma ∧
      s1 = (s.preds.filter (fun p => p.matchId == mid)).foldl (scoreStep mh ma) s ∧
      n = (s.preds.filter (fun p => p.matchId == mid)).length := by
  unfold calculatePointsForMatch at h
  split at h
  · exact absurd h (by simp)
  next m hfm =>
    split at h
    · exact absurd h (by simp)
    next hst =>
      split at h
      next mh ma hhs has =>
        simp only [Except.ok.injEq, Prod.mk.injEq] at h
        exact ⟨m, mh, ma, hfm, not_not.mp hst, hhs, has, h.1.symm, h.2.symm⟩
      next hother =>
        exact absurd h (by simp)

lemma upsert_ok_inv {s : DBState} {uid : String} {mid : Nat} {hsc asc : Int}
    {s1 : DBState} {r : PredictionRow}
    (hok : upsertPrediction s uid mid hsc asc = .ok (s1, r)) :
    ∃ m, findMatch s mid = some m ∧ m.status = .scheduled ∧
      ((∃ ex, findPredByUserMatch s uid mid = some ex ∧ ex.isLocked = false ∧
          r = upsertApply hsc asc ex ∧
          s1 = { s with preds := s.preds.map (fun p =>
                  if p.id == ex.id then upsertApply hsc asc p else p) }) ∨
       (findPredByUserMatch s uid mid = none ∧
          r = { id := s.nextPredId, userId := uid, matchId := mid,
                homeScore := hsc, awayScore := asc,
                result := calculateResult hsc asc,
                pointsEarned := none, isLocked := false } ∧
          s1 = { s with
                 preds := s.preds ++ [r],
                 nextPredId := s.nextPredId + 1 })) := by
  unfold upsertPrediction at hok
  split at hok
  · exact absurd hok (by simp)
  next m hfm =>
    split at hok
    · exact absurd hok (by simp)
    next hst =>
      refine ⟨m, hfm, not_not.mp hst, ?_⟩
      split at hok
      next ex hex =>
        split at hok
        · exact absurd hok (by simp)
        next hlock =>
          simp only [Except.ok.injEq, Prod.mk.injEq] at hok
          exact Or.inl ⟨ex, hex, Bool.not_eq_true _ ▸ (by
            simpa using hlock), hok.2.symm, hok.1.symm⟩
      next hnone =>
        simp only [Except.ok.injEq, Prod.mk.injEq] at hok
        refine Or.inr ⟨hnone, hok.2.symm, ?_⟩
        rw [← hok.1, ← hok.2]

lemma adminUpdate_ok_inv {s : DBState} {pid : Nat} {u : PredUpdates}
    {s1 : DBState} {r : PredictionRow}
    (h : adminUpdatePrediction s pid u = .ok (s1, r)) :
    ∃ ex, findPredById s pid = some ex ∧
      r = adminApply u (adminResult ex u) ex ∧
      s1.preds = s.preds.map (fun p =>
        if p.id == ex.id then adminApply u (adminResult ex u) p else p) ∧
      s1.matchRows = s.matchRows ∧ s1.nextPredId = s.nextPredId ∧
      ∀ v, s1.totals v = s.totals v +
        (match u.pointsEarned with
         | none => 0
         | some newVal =>
           if newVal = ex.pointsEarned then 0
           else if v = ex.userId then newVal.getD 0 - ex.pointsEarned.getD 0
           else 0) := by
  unfold adminUpdatePrediction at h
  split at h
  · exact absurd h (by simp)
  next ex hex =>
    refine ⟨ex, hex, ?_⟩
    rcases hpe : u.pointsEarned with _ | newVal
    · simp only [hpe] at h ⊢
      simp only [Except.ok.injEq, Prod.mk.injEq] at h
      obtain ⟨h1, h2⟩ := h
      subst h1
      exact ⟨h2.symm, rfl, rfl, rfl, fun v => by simp⟩
    · simp only [hpe] at h ⊢
      by_cases hch : newVal = ex.pointsEarned
      · simp only [if_pos hch] at h ⊢
        simp only [Except.ok.injEq, Prod.mk.injEq] at h
        obtain ⟨h1, h2⟩ := h
        subst h1
        exact ⟨h2.symm, rfl, rfl, rfl, fun v => by simp⟩
      · simp only [if_neg hch] at h ⊢
        simp only [Except.ok.injEq, Prod.mk.injEq] at h
        obtain ⟨h1, h2⟩ := h
        subst h1
        refine ⟨h2.symm, rfl, rfl, rfl, fun v => ?_⟩
        by_cases hv : v = ex.userId
        · simp [hv]
        · simp [hv]

lemma adminDelete_ok_inv {s : DBState} {pid : Nat} {s1 : DBState}
    {r : PredictionRow}
    (h : adminDeletePrediction s pid = .ok (s1, r)) :
    findPredById s pid = some r ∧
      s1.preds = s.preds.filter (fun q => !(q.id == pid)) ∧
      s1.matchRows = s.matchRows ∧ s1.nextPredId = s.nextPredId ∧
      ∀ v, s1.totals v = s.totals v -
        (if 0 < r.pointsEarned.getD 0 ∧ v = r.userId then r.pointsEarned.getD 0
         else 0) := by
  unfold adminDeletePrediction at h
  split at h
  · exact absurd h (by simp)
  next p hp =>
    simp only [Except.ok.injEq, Prod.mk.injEq] at h
    obtain ⟨h1, h2⟩ := h
    subst h2
    refine ⟨hp, ?_, ?_, ?_, ?_⟩ <;> rw [← h1]
    · rcases hpts : p.pointsEarned with _ | pts
      · simp [hpts]
      · by_cases hpos : pts > 0 <;> simp [hpts, hpos]
    · rcases hpts : p.pointsEarned with _ | pts
      · simp [hpts]
      · by_cases hpos : pts > 0 <;> simp [hpts, hpos]
    · rcases hpts : p.pointsEarned with _ | pts
      · simp [hpts]
      · by_cases hpos : pts > 0 <;> simp [hpts, hpos]
    · intro v
      rcases hpts : p.pointsEarned with _ | pts
      · simp [hpts]
      · by_cases hpos : pts > 0
        · by_cases hv : v = p.userId
          · simp [hpts, hpos, hv]
          · simp [hpts, hpos, hv]
        · simp only [hpts, Option.getD_some]
          rw [if_neg hpos]
          have : ¬(0 < pts ∧ v = p.userId) := fun hc => hpos hc.1
          rw [if_neg this]
          simp

/-! ## Small facts about lookups, keys and sums -/

lemma upsertApply_id (h a : Int) (p : PredictionRow) :
    (upsertApply h a p).id = p.id := rfl

lemma adminApply_id (u : PredUpdates) (rc : ResultCode) (p : PredictionRow) :
    (adminApply u rc p).id = p.id := rfl

lemma calculatePoints_nonneg (ph pa ah aa : Int) :
    0 ≤ calculatePoints ph pa ah aa := by
  unfold calculatePoints
  split
  · omega
  · split <;> omega

lemma map_ids_of_ite (c : PredictionRow → Bool) (f : PredictionRow → PredictionRow)
    (hf : ∀ x, (f x).id = x.id) (l : List PredictionRow) :
    (l.map (fun x => if c x then f x else x)).map (fun p => p.id) =
      l.map (fun p => p.id) := by
  rw [List.map_map]
  apply List.map_congr_left
  intro x _
  by_cases hc : c x <;> simp [Function.comp, hc, hf]

lemma map_pairs_of_ite (c : PredictionRow → Bool) (f : PredictionRow → PredictionRow)
    (hf : ∀ x, (f x).userId = x.userId ∧ (f x).matchId = x.matchId)
    (l : List PredictionRow) :
    (l.map (fun x => if c x then f x else x)).map (fun p => (p.userId, p.matchId)) =
      l.map (fun p => (p.userId, p.matchId)) := by
  rw [List.map_map]
  apply List.map_congr_left
  intro x _
  by_cases hc : c x <;> simp [Function.comp, hc, (hf x).1, (hf x).2]

lemma map_mids_of_ite (c : MatchRow → Bool) (f : MatchRow → MatchRow)
    (hf : ∀ x, (f x).id = x.id) (l : List MatchRow) :
    (l.map (fun x => if c x then f x else x)).map (fun m => m.id) =
      l.map (fun m => m.id) := by
  rw [List.map_map]
  apply List.map_congr_left
  intro x _
  by_cases hc : c x <;> simp [Function.comp, hc, hf]

lemma sumPts_map_of_preserve (f : PredictionRow → PredictionRow)
    (hf : ∀ p, (f p).userId = p.userId ∧ (f p).pointsEarned = p.pointsEarned)
    (l : List PredictionRow) (u : String) :
    sumPts u (l.map f) = sumPts u l := by
  unfold sumPts
  rw [List.map_map]
  congr 1
  apply List.map_congr_left
  intro p _
  simp [Function.comp, contrib, (hf p).1, (hf p).2]

lemma findMatch_props {s : DBState} {mid : Nat} {m : MatchRow}
    (h : findMatch s mid = some m) : m ∈ s.matchRows ∧ m.id = mid := by
  refine ⟨List.mem_of_find?_eq_some h, ?_⟩
  have := List.find?_some h
  simpa using this

lemma findPredById_props {s : DBState} {pid : Nat} {ex : PredictionRow}
    (h : findPredById s pid = some ex) : ex ∈ s.preds ∧ ex.id = pid := by
  refine ⟨List.mem_of_find?_eq_some h, ?_⟩
  have := List.find?_some h
  simpa using this

lemma findPredByUserMatch_props {s : DBState} {uid : String} {mid : Nat}
    {ex : PredictionRow} (h : findPredByUserMatch s uid mid = some ex) :
    ex ∈ s.preds ∧ ex.userId = uid ∧ ex.matchId = mid := by
  refine ⟨List.mem_of_find?_eq_some h, ?_⟩
  have := List.find?_some h
  simp only [Bool.and_eq_true, beq_iff_eq] at this
  exact this

lemma findPredByUserMatch_none {s : DBState} {uid : String} {mid : Nat}
    (h : findPredByUserMatch s uid mid = none) :
    ∀ p ∈ s.preds, ¬(p.userId = uid ∧ p.matchId = mid) := by
  intro p hp hc
  have := List.find?_eq_none.mp h p hp
  simp only [Bool.and_eq_true, beq_iff_eq] at this
  exact this ⟨hc.1, hc.2⟩

/-- A member of a duplicate-free match table is what lookup by its id
finds. -/
lemma findMatch_eq_of_mem {s : DBState} {m : MatchRow}
    (hnd : (s.matchRows.map (fun x => x.id)).Nodup) (hm : m ∈ s.matchRows) :
    findMatch s m.id = some m := by
  rcases hfm : findMatch s m.id with _ | m'
  · exact absurd (List.find?_eq_none.mp hfm m hm (by simp)) (by simp)
  · obtain ⟨hmem, hid⟩ := findMatch_props hfm
    rw [List.inj_on_of_nodup_map hnd hmem hm hid]

lemma submit_ok_inv {s : DBState} {uid : String} {mid : Nat} {hq aq : ℚ}
    {s1 : DBState} {r : PredictionRow}
    (h : submitPrediction s uid mid hq aq = .ok (s1, r)) :
    submitValidationError hq aq = none ∧
      upsertPrediction s uid mid hq.num aq.num = .ok (s1, r) := by
  unfold submitPrediction at h
  split at h
  · exact absurd h (by simp)
  next hv => exact ⟨hv, h⟩

/-! ## Preservation of the structural invariant -/

lemma upsert_preserves_SInv {s : DBState} {uid : String} {mid : Nat}
    {hsc asc : Int} {s1 : DBState} {r : PredictionRow}
    (hs : SInv s) (hok : upsertPrediction s uid mid hsc asc = .ok (s1, r)) :
    SInv s1 := by
  obtain ⟨m, hfm, hsch, hcase⟩ := upsert_ok_inv hok
  rcases hcase with ⟨ex, hex, hlock, hr, hs1⟩ | ⟨hnone, hr, hs1⟩
  · subst hs1
    constructor
    · dsimp only
      have hf : ∀ x : PredictionRow, (upsertApply hsc asc x).id = x.id :=
        fun x => rfl
      rw [map_ids_of_ite _ _ hf]
      exact hs.idsNodup
    · dsimp only
      have hf : ∀ x : PredictionRow, (upsertApply hsc asc x).userId = x.userId ∧
          (upsertApply hsc asc x).matchId = x.matchId := fun x => ⟨rfl, rfl⟩
      rw [map_pairs_of_ite _ _ hf]
      exact hs.pairsNodup
    · exact hs.matchIdsNodup
    · intro p hp
      dsimp only at hp
      rcases List.mem_map.mp hp with ⟨q, hq, hqe⟩
      have hid : p.id = q.id := by
        rw [← hqe]; by_cases hc : q.id = ex.id <;> simp [upsertApply, hc]
      show p.id < s.nextPredId
      rw [hid]
      exact hs.idsLt q hq
  · subst hs1
    constructor
    · dsimp only
      rw [List.map_append, List.nodup_append]
      refine ⟨hs.idsNodup, by simp, ?_⟩
      intro x hx
      simp only [List.map_cons, List.map_nil, List.mem_singleton]
      intro hxr
      rcases List.mem_map.mp hx with ⟨q, hq, hqe⟩
      have := hs.idsLt q hq
      rw [hqe, hxr, hr] at this
      exact absurd this (by simp)
    · dsimp only
      rw [List.map_append, List.nodup_append]
      refine ⟨hs.pairsNodup, by simp, ?_⟩
      intro x hx
      simp only [List.map_cons, List.map_nil, List.mem_singleton]
      intro hxr
      rcases List.mem_map.mp hx with ⟨q, hq, hqe⟩
      have hcon := findPredByUserMatch_none hnone q hq
      apply hcon
      have hpair : (q.userId, q.matchId) = (r.userId, r.matchId) := by
        rw [hqe, hxr]
      rw [hr] at hpair
      exact ⟨congrArg Prod.fst hpair, congrArg Prod.snd hpair⟩
    · exact hs.matchIdsNodup
    · intro p hp
      dsimp only at hp
      show p.id < s.nextPredId + 1
      rcases List.mem_append.mp hp with hold | hnew
      · exact Nat.lt_succ_of_lt (hs.idsLt p hold)
      · rw [List.mem_singleton.mp hnew, hr]
        exact Nat.lt_succ_self _

lemma adminUpdate_preserves_SInv {s : DBState} {pid : Nat} {u : PredUpdates}
    {s1 : DBState} {r : PredictionRow}
    (hs : SInv s) (hok : adminUpdatePrediction s pid u = .ok (s1, r)) :
    SInv s1 := by
  obtain ⟨ex, hex, hr, hpreds, hmr, hnext, htot⟩ := adminUpdate_ok_inv hok
  constructor
  · have hf : ∀ x : PredictionRow, (adminApply u (adminResult ex u) x).id = x.id :=
      fun x => rfl
    rw [hpreds, map_ids_of_ite _ _ hf]
    exact hs.idsNodup
  · have hf : ∀ x : PredictionRow,
        (adminApply u (adminResult ex u) x).userId = x.userId ∧
        (adminApply u (adminResult ex u) x).matchId = x.matchId :=
      fun x => ⟨rfl, rfl⟩
    rw [hpreds, map_pairs_of_ite _ _ hf]
    exact hs.pairsNodup
  · rw [hmr]; exact hs.matchIdsNodup
  · intro p hp
    rw [hpreds] at hp
    rcases List.mem_map.mp hp with ⟨q, hq, hqe⟩
    have hid : p.id = q.id := by
      rw [← hqe]; by_cases hc : q.id = ex.id <;> simp [adminApply, hc]
    rw [hnext, hid]
    exact hs.idsLt q hq

lemma adminDelete_preserves_SInv {s : DBState} {pid : Nat}
    {s1 : DBState} {r : PredictionRow}
    (hs : SInv s) (hok : adminDeletePrediction s pid = .ok (s1, r)) :
    SInv s1 := by
  obtain ⟨hfind, hpreds, hmr, hnext, htot⟩ := adminDelete_ok_inv hok
  have hsub : s1.preds.Sublist s.preds := by rw [hpreds]; exact List.filter_sublist _
  constructor
  · exact (hsub.map (fun p => p.id)).nodup hs.idsNodup
  · exact (hsub.map (fun p => (p.userId, p.matchId))).nodup hs.pairsNodup
  · rw [hmr]; exact hs.matchIdsNodup
  · intro p hp
    rw [hnext]
    exact hs.idsLt p (hsub.mem hp)

lemma updateMatchResult_SInv {s : DBState} (mid : Nat) (hsc asc : Int)
    (st : MatchStatus) (hs : SInv s) :
    SInv (updateMatchResult s mid hsc asc st) := by
  constructor
  · exact hs.idsNodup
  · exact hs.pairsNodup
  · unfold updateMatchResult
    dsimp only
    have hf : ∀ x : MatchRow,
        ((fun m : MatchRow =>
          { m with
            homeScore := some hsc, awayScore := some asc, status := st }) x).id =
        x.id := fun x => rfl
    rw [map_mids_of_ite _ _ hf]
    exact hs.matchIdsNodup
  · exact hs.idsLt

lemma lockPredictions_SInv {s : DBState} (mid : Nat) (hs : SInv s) :
    SInv (lockPredictionsForMatch s mid) := by
  constructor
  · unfold lockPredictionsForMatch
    dsimp only
    have hf : ∀ x : PredictionRow,
        ((fun p : PredictionRow => { p with isLocked := true }) x).id = x.id :=
      fun x => rfl
    rw [map_ids_of_ite _ _ hf]
    exact hs.idsNodup
  · unfold lockPredictionsForMatch
    dsimp only
    have hf : ∀ x : PredictionRow,
        ((fun p : PredictionRow => { p with isLocked := true }) x).userId = x.userId ∧
        ((fun p : PredictionRow => { p with isLocked := true }) x).matchId = x.matchId :=
      fun x => ⟨rfl, rfl⟩
    rw [map_pairs_of_ite _ _ hf]
    exact hs.pairsNodup
  · exact hs.matchIdsNodup
  · intro p hp
    rcases List.mem_map.mp hp with ⟨q, hq, hqe⟩
    have hid : p.id = q.id := by
      rw [← hqe]; by_cases hc : q.matchId = mid <;> simp [hc]
    show p.id < s.nextPredId
    rw [hid]
    exact hs.idsLt q hq

lemma calc_preserves_SInv {s : DBState} {mid : Nat} {s1 : DBState} {n : Nat}
    (hs : SInv s) (hok : calculatePointsForMatch s mid = .ok (s1, n)) :
    SInv s1 := by
  obtain ⟨m, mh, ma, hfm, hst, hhs, has, hs1, hn⟩ := calc_ok_inv hok
  subst hs1
  have hpreds := calc_preds_eq s mid mh ma hs.idsNodup
  constructor
  · have hf : ∀ x : PredictionRow,
        ((fun p : PredictionRow => setPts (predPoints mh ma p) p) x).id = x.id :=
      fun x => rfl
    rw [hpreds, map_ids_of_ite _ _ hf]
    exact hs.idsNodup
  · have hf : ∀ x : PredictionRow,
        ((fun p : PredictionRow => setPts (predPoints mh ma p) p) x).userId = x.userId ∧
        ((fun p : PredictionRow => setPts (predPoints mh ma p) p) x).matchId = x.matchId :=
      fun x => ⟨rfl, rfl⟩
    rw [hpreds, map_pairs_of_ite _ _ hf]
    exact hs.pairsNodup
  · rw [foldl_scoreStep_matchRows]
    exact hs.matchIdsNodup
  · intro p hp
    rw [hpreds] at hp
    rcases List.mem_map.mp hp with ⟨q, hq, hqe⟩
    have hid : p.id = q.id := by
      rw [← hqe]; by_cases hc : q.matchId = mid <;> simp [hc, setPts]
    rw [foldl_scoreStep_nextPredId, hid]
    exact hs.idsLt q hq

lemma resetAll_preserves_SInv {s : DBState} (b : Bool) (hs : SInv s) :
    SInv (adminDeleteAllPredictions s b) := by
  unfold adminDeleteAllPredictions
  by_cases hb : b
  · rw [if_pos hb]
    constructor
    · simp
    · simp
    · dsimp only
      rw [List.map_map]
      have hcomp : ((fun m : MatchRow => m.id) ∘ (fun m : MatchRow =>
          { m with homeScore := none, awayScore := none,
                   status := MatchStatus.scheduled })) = fun m => m.id := rfl
      rw [hcomp]
      exact hs.matchIdsNodup
    · intro p hp; cases hp
  · rw [if_neg hb]
    exact ⟨by simp, by simp, hs.matchIdsNodup, fun p hp => by cases hp⟩

lemma Step_preserves_SInv {s s1 : DBState} (hs : SInv s) (hstep : Step s s1) :
    SInv s1 := by
  cases hstep with
  | submit uid mid hq aq s1x r h =>
    exact upsert_preserves_SInv hs (submit_ok_inv h).2
  | finishMatch mid hsc asc s3 n m hm hnf hh ha hcalc =>
    exact calc_preserves_SInv
      (lockPredictions_SInv mid (updateMatchResult_SInv mid hsc asc .finished hs)) hcalc
  | adminUpdate pid u s1x r hval h =>
    exact adminUpdate_preserves_SInv hs h
  | adminDelete pid s1x r h =>
    exact adminDelete_preserves_SInv hs h
  | resetAll b =>
    exact resetAll_preserves_SInv b hs

lemma Init_SInv {s : DBState} (h : Init s) : SInv s := by
  obtain ⟨hp, ht, hm⟩ := h
  exact ⟨by simp [hp], by simp [hp], hm, fun p hp2 => by rw [hp] at hp2; cases hp2⟩

lemma Reachable_SInv {s : DBState} (h : Reachable s) : SInv s := by
  induction h with
  | init s h => exact Init_SInv h
  | step s s1 hr hstep ih => exact Step_preserves_SInv ih hstep

/-! ## Preservation of the full invariant -/

lemma findMatch_updateMatchResult (s : DBState) (mid : Nat) (hsc asc : Int)
    (st : MatchStatus) (k : Nat) :
    findMatch (updateMatchResult s mid hsc asc st) k =
      (findMatch s k).map (fun m => if m.id == mid then
        { m with homeScore := some hsc, awayScore := some asc, status := st }
      else m) := by
  unfold findMatch updateMatchResult
  dsimp only
  rw [List.find?_map]
  have hcomp : ((fun m : MatchRow => m.id == k) ∘ (fun m : MatchRow =>
      if m.id == mid then
        { m with
          homeScore := some hsc, awayScore := some asc, status := st }
      else m)) = fun m : MatchRow => m.id == k := by
    funext m
    by_cases hc : m.id = mid <;> simp [Function.comp, hc]
  rw [hcomp]

lemma findMatch_lock (s : DBState) (mid k : Nat) :
    findMatch (lockPredictionsForMatch s mid) k = findMatch s k := rfl

lemma lock_preds (s : DBState) (mid : Nat) :
    (lockPredictionsForMatch s mid).preds =
      s.preds.map (fun p =>
        if p.matchId == mid then { p with isLocked := true } else p) := rfl

lemma upsert_preserves_Inv {s : DBState} {uid : String} {mid : Nat}
    {hsc asc : Int} {s1 : DBState} {r : PredictionRow}
    (hinv : Inv s) (hok : upsertPrediction s uid mid hsc asc = .ok (s1, r)) :
    Inv s1 := by
  obtain ⟨m, hfm, hsch, hcase⟩ := upsert_ok_inv hok
  refine ⟨upsert_preserves_SInv hinv.toSInv hok, ?_, ?_, ?_⟩
  · -- totalsEq
    intro u
    rcases hcase with ⟨ex, hex, hlock, hr, hs1⟩ | ⟨hnone, hr, hs1⟩
    · obtain ⟨hexmem, hexu, hexm⟩ := findPredByUserMatch_props hex
      have hexnull : ex.pointsEarned = none := by
        apply hinv.notFinishedNull ex hexmem m
        · rw [hexm]; exact hfm
        · rw [hsch]; simp
      subst hs1
      show s.totals u = sumPts u (s.preds.map _)
      rw [sumPts_update_by_id (upsertApply hsc asc) hinv.idsNodup hexmem u]
      have h1 : contrib u ex = 0 := by
        unfold contrib
        rw [hexnull]
        simp
      have h2 : contrib u (upsertApply hsc asc ex) = 0 := by
        unfold contrib upsertApply
        simp
      rw [h1, h2, hinv.totalsEq u]
      ring
    · subst hs1
      show s.totals u = sumPts u (s.preds ++ [r])
      rw [sumPts_append]
      have h2 : contrib u r = 0 := by
        unfold contrib
        rw [hr]
        simp
      rw [show sumPts u [r] = contrib u r from by simp [sumPts], h2,
        hinv.totalsEq u]
      ring
  · -- notFinishedNull
    intro p hp m2 hfm2 hst2
    rcases hcase with ⟨ex, hex, hlock, hr, hs1⟩ | ⟨hnone, hr, hs1⟩
    · subst hs1
      dsimp only at hp hfm2
      rcases List.mem_map.mp hp with ⟨q, hq, hqe⟩
      by_cases hc : q.id = ex.id
      · rw [← hqe]
        simp [upsertApply, hc]
      · have : q = p := by
          rw [← hqe]
          simp [hc]
        subst this
        exact hinv.notFinishedNull q hq m2 hfm2 hst2
    · subst hs1
      dsimp only at hp hfm2
      rcases List.mem_append.mp hp with hold | hnew
      · exact hinv.notFinishedNull p hold m2 hfm2 hst2
      · rw [List.mem_singleton.mp hnew, hr]
  · -- ptsNonneg
    intro p hp
    rcases hcase with ⟨ex, hex, hlock, hr, hs1⟩ | ⟨hnone, hr, hs1⟩
    · subst hs1
      dsimp only at hp
      rcases List.mem_map.mp hp with ⟨q, hq, hqe⟩
      by_cases hc : q.id = ex.id
      · rw [← hqe]
        simp [upsertApply, hc]
      · have : q = p := by
          rw [← hqe]
          simp [hc]
        subst this
        exact hinv.ptsNonneg q hq
    · subst hs1
      dsimp only at hp
      rcases List.mem_append.mp hp with hold | hnew
      · exact hinv.ptsNonneg p hold
      · rw [List.mem_singleton.mp hnew, hr]
        simp

lemma finishMatch_preserves_Inv {s : DBState} {mid : Nat} {hsc asc : Int}
    {s3 : DBState} {n : Nat} {m : MatchRow}
    (hinv : Inv s) (hm : findMatch s mid = some m) (hnf : m.status ≠ .finished)
    (hcalc : calculatePointsForMatch
      (lockPredictionsForMatch (updateMatchResult s mid hsc asc .finished) mid)
      mid = .ok (s3, n)) : Inv s3 := by
  set s2 := lockPredictionsForMatch (updateMatchResult s mid hsc asc .finished) mid
    with hs2def
  have hSInv2 : SInv s2 :=
    lockPredictions_SInv mid (updateMatchResult_SInv mid hsc asc .finished hinv.toSInv)
  obtain ⟨m2, mh, ma, hfm2, hst2, hhs2, has2, hs3, hn⟩ := calc_ok_inv hcalc
  have hpreds2 : s2.preds = s.preds.map (fun p =>
      if p.matchId == mid then { p with isLocked := true } else p) := rfl
  have htot2 : s2.totals = s.totals := rfl
  have hmem2 : ∀ p2 ∈ s2.preds, ∃ q ∈ s.preds, p2.matchId = q.matchId ∧
      p2.pointsEarned = q.pointsEarned ∧ p2.userId = q.userId := by
    intro p2 hp2
    rw [hpreds2] at hp2
    rcases List.mem_map.mp hp2 with ⟨q, hq, hqe⟩
    refine ⟨q, hq, ?_, ?_, ?_⟩ <;> rw [← hqe] <;>
      by_cases hc : q.matchId = mid <;> simp [hc]
  have hpreds3 : s3.preds = s2.preds.map (fun p =>
      if p.matchId == mid then setPts (predPoints mh ma p) p else p) := by
    rw [hs3]; exact calc_preds_eq s2 mid mh ma hSInv2.idsNodup
  have htot3 : ∀ u, s3.totals u = s2.totals u +
      ((s2.preds.filter (fun p => p.matchId == mid && p.userId == u)).map
        (fun p => predPoints mh ma p)).sum := by
    intro u
    rw [hs3, foldl_scoreStep_totals]
    have hfe : s2.preds.filter (fun a => a.userId == u && a.matchId == mid) =
        s2.preds.filter (fun p => p.matchId == mid && p.userId == u) := by
      apply List.filter_congr
      intro a _
      exact Bool.and_comm _ _
    rw [List.filter_filter, hfe]
  have hmr3 : s3.matchRows = s2.matchRows := by
    rw [hs3]; exact foldl_scoreStep_matchRows mh ma _ s2
  have hnull2 : ∀ p ∈ s2.preds, p.matchId = mid → p.pointsEarned = none := by
    intro p hp hpm
    rcases hmem2 p hp with ⟨q, hq, hqm, hqpts, hqu⟩
    rw [hqpts]
    apply hinv.notFinishedNull q hq m _ hnf
    rw [← hqm, hpm]
    exact hm
  refine ⟨calc_preserves_SInv hSInv2 hcalc, ?_, ?_, ?_⟩
  · intro u
    rw [htot3 u, hpreds3, sumPts_scoreAll hnull2 u, htot2]
    have hsum2 : sumPts u s2.preds = sumPts u s.preds := by
      rw [hpreds2]
      apply sumPts_map_of_preserve
      intro p
      by_cases hc : p.matchId = mid <;> simp [hc]
    rw [hsum2, hinv.totalsEq u]
  · intro p hp m' hfm' hst'
    rw [hpreds3] at hp
    rcases List.mem_map.mp hp with ⟨q2, hq2, hq2e⟩
    by_cases hc : q2.matchId = mid
    · exfalso
      have hpm : p.matchId = mid := by rw [← hq2e]; simp [hc, setPts]
      have hfm3 : findMatch s3 p.matchId = some m2 := by
        rw [hpm]
        show (s3.matchRows.find? fun mm => mm.id == mid) = some m2
        rw [hmr3]
        exact hfm2
      rw [hfm3] at hfm'
      injection hfm' with he
      rw [← he] at hst'
      exact hst' hst2
    · have hpq : p = q2 := by rw [← hq2e]; simp [hc]
      rcases hmem2 q2 hq2 with ⟨q, hq, hqm, hqpts, hqu⟩
      have hqmid : q.matchId ≠ mid := by rw [← hqm]; exact hc
      -- the match of q is unchanged by the result entry
      have hfmq : findMatch s2 q.matchId = some m' := by
        have h1 : findMatch s3 p.matchId = findMatch s2 p.matchId := by
          unfold findMatch
          rw [hmr3]
        rw [h1, hpq, hqm] at hfm'
        exact hfm'
      have hfmq0 : findMatch s q.matchId = some m' := by
        have heq : findMatch s2 q.matchId =
            (findMatch s q.matchId).map (fun mm => if mm.id == mid then
              { mm with
                homeScore := some hsc, awayScore := some asc,
                status := MatchStatus.finished }
            else mm) := by
          rw [hs2def]
          rw [findMatch_lock]
          exact findMatch_updateMatchResult s mid hsc asc .finished q.matchId
        rw [heq] at hfmq
        rcases hfm0 : findMatch s q.matchId with _ | m0
        · rw [hfm0] at hfmq; exact absurd hfmq (by simp)
        · rw [hfm0] at hfmq
          rw [show ∀ (f : MatchRow → MatchRow) (a : MatchRow),
            Option.map f (some a) = some (f a) from fun f a => rfl] at hfmq
          have hm0id : m0.id = q.matchId := (findMatch_props hfm0).2
          have hm0ne : (m0.id == mid) = false := by
            simp only [beq_eq_false_iff_ne, ne_eq, hm0id]
            exact hqmid
          rw [hm0ne] at hfmq
          simp only [Bool.false_eq_true, if_false] at hfmq
          rw [hfmq]
      have hqnull : q.pointsEarned = none :=
        hinv.notFinishedNull q hq m' hfmq0 hst'
      rw [hpq, hqpts, hqnull]
  · intro p hp
    rw [hpreds3] at hp
    rcases List.mem_map.mp hp with ⟨q2, hq2, hq2e⟩
    by_cases hc : q2.matchId = mid
    · rw [← hq2e]
      simp only [hc, beq_self_eq_true, if_true, setPts]
      simp [predPoints, calculatePoints_nonneg]
    · have hpq : p = q2 := by rw [← hq2e]; simp [hc]
      rcases hmem2 q2 hq2 with ⟨q, hq, hqm, hqpts, hqu⟩
      rw [hpq, hqpts]
      exact hinv.ptsNonneg q hq

lemma adminUpdate_preserves_Inv {s : DBState} {pid : Nat} {u : PredUpdates}
    {s1 : DBState} {r : PredictionRow}
    (hinv : Inv s) (hval : validAdminUpdates u)
    (hguard : adminPointsGuard s pid u)
    (hok : adminUpdatePrediction s pid u = .ok (s1, r)) : Inv s1 := by
  obtain ⟨ex, hex, hr, hpreds, hmr, hnext, htot⟩ := adminUpdate_ok_inv hok
  obtain ⟨hexmem, hexid⟩ := findPredById_props hex
  refine ⟨adminUpdate_preserves_SInv hinv.toSInv hok, ?_, ?_, ?_⟩
  · intro v
    rw [htot v, hpreds]
    rw [sumPts_update_by_id (adminApply u (adminResult ex u)) hinv.idsNodup hexmem v]
    rw [hinv.totalsEq v]
    have hcu : contrib v (adminApply u (adminResult ex u) ex) =
        (if ex.userId = v then (u.pointsEarned.getD ex.pointsEarned).getD 0 else 0) := by
      unfold contrib adminApply
      by_cases hv : ex.userId = v <;> simp [hv]
    have hce : contrib v ex =
        (if ex.userId = v then ex.pointsEarned.getD 0 else 0) := rfl
    rw [hcu, hce]
    rcases hpe : u.pointsEarned with _ | newVal
    · simp only [hpe, Option.getD_none]
      by_cases hv : ex.userId = v <;> simp [hv]
    · by_cases hch : newVal = ex.pointsEarned
      · simp only [hpe, hch, Option.getD_some]
        by_cases hv : ex.userId = v <;> simp [hv, if_pos rfl]
      · simp only [hpe, Option.getD_some, if_neg hch]
        by_cases hv : ex.userId = v
        · rw [if_pos hv, if_pos hv, if_pos hv.symm]
          ring
        · rw [if_neg hv, if_neg hv, if_neg (fun he => hv he.symm)]
          ring
  · intro p hp m2 hfm2 hst2
    rw [hpreds] at hp
    rcases List.mem_map.mp hp with ⟨q, hq, hqe⟩
    have hfm2s : findMatch s p.matchId = some m2 := by
      unfold findMatch at hfm2 ⊢
      rw [hmr] at hfm2
      exact hfm2
    by_cases hc : q.id = ex.id
    · have hqex : q = ex :=
        List.inj_on_of_nodup_map hinv.idsNodup hq hexmem hc
      subst hqex
      have hpmq : p.matchId = q.matchId := by
        rw [← hqe]; simp [hc, adminApply]
      have hppts : p.pointsEarned = u.pointsEarned.getD q.pointsEarned := by
        rw [← hqe]; simp [hc, adminApply]
      rcases hpe : u.pointsEarned with _ | newVal
      · rw [hppts, hpe, Option.getD_none]
        apply hinv.notFinishedNull q hq m2 _ hst2
        rw [← hpmq]
        exact hfm2s
      · by_cases hch : newVal = q.pointsEarned
        · rw [hppts, hpe, Option.getD_some, hch]
          apply hinv.notFinishedNull q hq m2 _ hst2
          rw [← hpmq]
          exact hfm2s
        · exfalso
          rcases hguard q hex newVal hpe hch with ⟨mg, hmg, hmgst⟩
          rw [hpmq] at hfm2s
          rw [hmg] at hfm2s
          injection hfm2s with he
          rw [he] at hmgst
          exact hst2 hmgst
    · have hqp : q = p := by rw [← hqe]; simp [hc]
      subst hqp
      exact hinv.notFinishedNull q hq m2 hfm2s hst2
  · intro p hp
    rw [hpreds] at hp
    rcases List.mem_map.mp hp with ⟨q, hq, hqe⟩
    by_cases hc : q.id = ex.id
    · have hppts : p.pointsEarned = u.pointsEarned.getD q.pointsEarned := by
        rw [← hqe]; simp [hc, adminApply]
      rcases hpe : u.pointsEarned with _ | newVal
      · rw [hppts, hpe, Option.getD_none]
        exact hinv.ptsNonneg q hq
      · rcases hnv : newVal with _ | k
        · rw [hppts, hpe, Option.getD_some, hnv]
          simp
        · have := (hval.2.2 newVal k hpe hnv).1
          rw [hppts, hpe, Option.getD_some, hnv]
          simpa using this
    · have hqp : q = p := by rw [← hqe]; simp [hc]
      subst hqp
      exact hinv.ptsNonneg q hq

lemma adminDelete_preserves_Inv {s : DBState} {pid : Nat}
    {s1 : DBState} {r : PredictionRow}
    (hinv : Inv s) (hok : adminDeletePrediction s pid = .ok (s1, r)) :
    Inv s1 := by
  obtain ⟨hfind, hpreds, hmr, hnext, htot⟩ := adminDelete_ok_inv hok
  obtain ⟨hrmem, hrid⟩ := findPredById_props hfind
  have hsub : s1.preds.Sublist s.preds := by
    rw [hpreds]; exact List.filter_sublist _
  refine ⟨adminDelete_preserves_SInv hinv.toSInv hok, ?_, ?_, ?_⟩
  · intro v
    rw [htot v, hpreds]
    rw [show pid = r.id from hrid.symm]
    rw [sumPts_filter_out_id hinv.idsNodup hrmem v]
    rw [hinv.totalsEq v]
    have hnn := hinv.ptsNonneg r hrmem
    have hce : contrib v r =
        (if 0 < r.pointsEarned.getD 0 ∧ v = r.userId then r.pointsEarned.getD 0
         else 0) := by
      unfold contrib
      by_cases hv : r.userId = v
      · rw [if_pos hv]
        by_cases hpos : 0 < r.pointsEarned.getD 0
        · rw [if_pos ⟨hpos, hv.symm⟩]
        · rw [if_neg (fun hc => hpos hc.1)]
          omega
      · rw [if_neg hv, if_neg (fun hc => hv hc.2.symm)]
    rw [hce]
  · intro p hp m2 hfm2 hst2
    apply hinv.notFinishedNull p (hsub.mem hp) m2 _ hst2
    unfold findMatch at hfm2 ⊢
    rw [hmr] at hfm2
    exact hfm2
  · intro p hp
    exact hinv.ptsNonneg p (hsub.mem hp)

lemma resetAll_preserves_Inv {s : DBState} (b : Bool) (hinv : Inv s) :
    Inv (adminDeleteAllPredictions s b) := by
  refine ⟨resetAll_preserves_SInv b hinv.toSInv, ?_, ?_, ?_⟩ <;>
    unfold adminDeleteAllPredictions <;> by_cases hb : b
  · rw [if_pos hb]; intro v; rfl
  · rw [if_neg hb]; intro v; rfl
  · rw [if_pos hb]; intro p hp; cases hp
  · rw [if_neg hb]; intro p hp; cases hp
  · rw [if_pos hb]; intro p hp; cases hp
  · rw [if_neg hb]; intro p hp; cases hp

lemma StepG_Step {s s1 : DBState} (h : StepG s s1) : Step s s1 := by
  cases h with
  | submit a1 a2 a3 a4 a5 a6 a7 => exact Step.submit s a1 a2 a3 a4 s1 a6 a7
  | finishMatch b1 b2 b3 b4 b5 b6 b7 b8 b9 b10 b11 =>
    exact Step.finishMatch s b1 b2 b3 s1 b5 b6 b7 b8 b9 b10 b11
  | adminUpdate c1 c2 c3 c4 c5 c6 c7 =>
    exact Step.adminUpdate s c1 c2 s1 c4 c5 c7
  | adminDelete d1 d2 d3 d4 => exact Step.adminDelete s d1 s1 d3 d4
  | resetAll e1 => exact Step.resetAll s e1

lemma StepG_preserves_Inv {s s1 : DBState} (hinv : Inv s) (hstep : StepG s s1) :
    Inv s1 := by
  cases hstep with
  | submit uid mid hq aq s1x r h =>
    exact upsert_preserves_Inv hinv (submit_ok_inv h).2
  | finishMatch mid hsc asc s3 n m hm hnf hh ha hcalc =>
    exact finishMatch_preserves_Inv hinv hm hnf hcalc
  | adminUpdate pid u s1x r hval hguard h =>
    exact adminUpdate_preserves_Inv hinv hval hguard h
  | adminDelete pid s1x r h =>
    exact adminDelete_preserves_Inv hinv h
  | resetAll b =>
    exact resetAll_preserves_Inv b hinv

lemma Init_Inv {s : DBState} (h : Init s) : Inv s := by
  obtain ⟨hp, ht, hm⟩ := h
  refine ⟨Init_SInv ⟨hp, ht, hm⟩, ?_, ?_, ?_⟩
  · intro v
    rw [hp, ht]
    rfl
  · intro p hp2
    rw [hp] at hp2
    cases hp2
  · intro p hp2
    rw [hp] at hp2
    cases hp2

lemma ReachableG_Inv {s : DBState} (h : ReachableG s) : Inv s := by
  induction h with
  | init s h => exact Init_Inv h
  | step s s1 hr hstep ih => exact StepG_preserves_Inv ih hstep

/-! ## Claim C1 -/

lemma calc_scored_value {s : DBState} {mid : Nat} {m : MatchRow} {mh ma : Int}
    (hfm : findMatch s mid = some m) (hst : m.status = .finished)
    (hhs : m.homeScore = some mh) (has : m.awayScore = some ma)
    (hnd : (s.preds.map (fun p => p.id)).Nodup)
    {p : PredictionRow} (hp : p ∈ s.preds) (hpm : p.matchId = mid) :
    ∃ s1 n, calculatePointsForMatch s mid = .ok (s1, n) ∧
      ∀ q ∈ s1.preds, q.id = p.id →
        q.pointsEarned = some (calculatePoints p.homeScore p.awayScore mh ma) := by
  have hok : calculatePointsForMatch s mid =
      .ok ((s.preds.filter (fun x => x.matchId == mid)).foldl (scoreStep mh ma) s,
        (s.preds.filter (fun x => x.matchId == mid)).length) := by
    unfold calculatePointsForMatch
    simp only [hfm, hst, hhs, has]
    simp
  refine ⟨_, _, hok, ?_⟩
  intro q hq hqid
  rw [calc_preds_eq s mid mh ma hnd] at hq
  rcases List.mem_map.mp hq with ⟨q0, hq0, hq0e⟩
  by_cases hc : q0.matchId = mid
  · have hqid0 : q.id = q0.id := by rw [← hq0e]; simp [hc, setPts]
    have hq0p : q0 = p :=
      List.inj_on_of_nodup_map hnd hq0 hp (by rw [← hqid0, hqid])
    rw [← hq0e]
    simp [hc, setPts, predPoints, hq0p, hpm]
  · have hqq0 : q = q0 := by rw [← hq0e]; simp [hc]
    have hq0p : q0 = p :=
      List.inj_on_of_nodup_map hnd hq0 hp (by rw [← hqq0, hqid])
    rw [hq0p] at hc
    exact absurd hpm hc

lemma findMatch_setMultiplier (s : DBState) (mid : Nat) (mult : ℚ) (k : Nat) :
    findMatch (setMultiplier s mid mult) k =
      (findMatch s k).map (fun m => if m.id == mid then
        { m with stageMultiplier := mult } else m) := by
  unfold findMatch setMultiplier
  dsimp only
  rw [List.find?_map]
  have hcomp : ((fun m : MatchRow => m.id == k) ∘ (fun m : MatchRow =>
      if m.id == mid then { m with stageMultiplier := mult } else m)) =
      fun m : MatchRow => m.id == k := by
    funext m
    by_cases hc : m.id = mid <;> simp [Function.comp, hc]
  rw [hcomp]

/-- **C1.** For every prediction on a fixture whose status is finished and
whose two final scores are non-null, `calculatePointsForMatch` sets that
prediction's `pointsEarned` to exactly 3 when both predicted scores equal
both final scores, otherwise to 1 when the outcome code of the predicted
scores equals the outcome code of the final scores (outcome computed by
the same `calculateResult` rule), otherwise to 0 — and the stage
multiplier of the fixture plays no part: the same value results whatever
the multiplier is set to. -/
theorem C1_core_scoring (s : DBState) (mid : Nat) (m : MatchRow) (mh ma : Int)
    (hfm : findMatch s mid = some m) (hst : m.status = .finished)
    (hhs : m.homeScore = some mh) (has : m.awayScore = some ma)
    (hnd : (s.preds.map (fun p => p.id)).Nodup)
    (p : PredictionRow) (hp : p ∈ s.preds) (hpm : p.matchId = mid) :
    (∃ s1 n, calculatePointsForMatch s mid = .ok (s1, n) ∧
      ∀ q ∈ s1.preds, q.id = p.id → q.pointsEarned = some (
        if p.homeScore = mh ∧ p.awayScore = ma then 3
        else if calculateResult p.homeScore p.awayScore = calculateResult mh ma
          then 1 else 0)) ∧
    (∀ mult : ℚ, ∃ s1 n,
      calculatePointsForMatch (setMultiplier s mid mult) mid = .ok (s1, n) ∧
      ∀ q ∈ s1.preds, q.id = p.id → q.pointsEarned = some (
        if p.homeScore = mh ∧ p.awayScore = ma then 3
        else if calculateResult p.homeScore p.awayScore = calculateResult mh ma
          then 1 else 0)) := by
  have hval : (if p.homeScore = mh ∧ p.awayScore = ma then (3 : Int)
      else if calculateResult p.homeScore p.awayScore = calculateResult mh ma
        then 1 else 0) = calculatePoints p.homeScore p.awayScore mh ma := by
    unfold calculatePoints
    rfl
  constructor
  · rw [hval]
    exact calc_scored_value hfm hst hhs has hnd hp hpm
  · intro mult
    rw [hval]
    have hmid : m.id = mid := (findMatch_props hfm).2
    have hfm2 : findMatch (setMultiplier s mid mult) mid =
        some { m with stageMultiplier := mult } := by
      rw [findMatch_setMultiplier, hfm]
      simp [hmid]
    exact calc_scored_value hfm2 hst hhs has hnd hp hpm

/-- Witness for C1 at the concrete finished fixture 2:1 with `u2`'s exact
2:1 prediction. -/
theorem C1_core_scoring_witness :
    (∃ s1 n, calculatePointsForMatch exSFin 1 = .ok (s1, n) ∧
      ∀ q ∈ s1.preds, q.id = exP21.id → q.pointsEarned = some (
        if exP21.homeScore = 2 ∧ exP21.awayScore = 1 then 3
        else if calculateResult exP21.homeScore exP21.awayScore =
            calculateResult 2 1 then 1 else 0)) ∧
    (∀ mult : ℚ, ∃ s1 n,
      calculatePointsForMatch (setMultiplier exSFin 1 mult) 1 = .ok (s1, n) ∧
      ∀ q ∈ s1.preds, q.id = exP21.id → q.pointsEarned = some (
        if exP21.homeScore = 2 ∧ exP21.awayScore = 1 then 3
        else if calculateResult exP21.homeScore exP21.awayScore =
            calculateResult 2 1 then 1 else 0)) :=
  C1_core_scoring exSFin 1 exM1fin 2 1 rfl rfl rfl rfl (by decide) exP21
    (by decide) rfl

/-! ## Claim C8 (score validation on the submit path) -/

/-- **C8.** The `submitPrediction` server action accepts 0 and 20, rejects
-1 and non-integers — but, contrary to the claim and to the repository's
own validation layer (`scoreSchema` caps scores at 20 and the project
docs mandate Zod validation of every server-action input), it also
accepts 21: the inline validation checks only non-negativity and
integrality, so no upper bound is enforced. -/
theorem C8_validation_behaviour :
    (submitPrediction exS0 "u1" 1 0 0).isOk = true ∧
    (submitPrediction exS0 "u1" 1 20 0).isOk = true ∧
    (submitPrediction exS0 "u1" 1 21 0).isOk = true ∧
    ((submitPrediction exS0 "u1" 1 21 0).toOption.map
      (fun x => x.2.homeScore)) = some 21 ∧
    submitPrediction exS0 "u1" 1 (-1) 0 =
      .error "Scores must be non-negative" ∧
    submitPrediction exS0 "u1" 1 (1 / 2 : ℚ) 0 =
      .error "Scores must be whole numbers" := by
  refine ⟨rfl, rfl, rfl, rfl, ?_, ?_⟩ <;>
    · unfold submitPrediction submitValidationError
      norm_num

/-! ## Claim C3 (what the submission path actually checks) -/

/-- **C3, counterexample.** A submission arriving exactly at the
fixture's `scheduledAt` instant (here both are 100), with the fixture
still marked `scheduled` and no persisted lock flag, makes the spec's
locked-state (§4.2) true — yet `submitPrediction` silently succeeds and
stores the scores: the code never evaluates the time-based component. -/
theorem C3_time_lock_counterexample :
    specIsLockedState false exM1.status exM1.scheduledAt 100 ∧
    (submitPrediction exS0 "u1" 1 2 1).isOk = true ∧
    ((submitPrediction exS0 "u1" 1 2 1).toOption.map
      (fun x => (x.2.homeScore, x.2.awayScore))) = some (2, 1) := by
  refine ⟨Or.inr (Or.inr ?_), rfl, rfl⟩
  show (100 : Int) ≥ exM1.scheduledAt
  norm_num [exM1]

/-- **C3, amended.** The submission path enforces only the persisted lock
flag and the fixture-status components of the locked-state: whenever the
fixture's status is not `scheduled`, or the stored prediction carries
`isLocked = true`, `upsertPrediction` fails with an error (and, failing,
changes nothing).  The time component `now ≥ scheduledAt` is not
evaluated at submission time (see the counterexample); it is enforced
only by the periodic `lockUpcomingMatchPredictions` sweep. -/
theorem C3_flag_status_lock_rejected (s : DBState) (uid : String) (mid : Nat)
    (hsc asc : Int) (m : MatchRow) (ex : PredictionRow)
    (hm : findMatch s mid = some m)
    (hex : findPredByUserMatch s uid mid = some ex)
    (hlockstate : m.status ≠ .scheduled ∨ ex.isLocked = true) :
    ∃ e, upsertPrediction s uid mid hsc asc = .error e := by
  unfold upsertPrediction
  simp only [hm]
  by_cases hst : m.status = MatchStatus.scheduled
  · rcases hlockstate with hbad | hlock
    · exact absurd hst hbad
    · rw [if_neg (by rw [hst]; simp)]
      simp only [hex, hlock]
      exact ⟨_, rfl⟩
  · rw [if_pos hst]
    exact ⟨_, rfl⟩

/-- Witness for the amended C3 at a locked prediction on a finished
fixture. -/
theorem C3_flag_status_lock_rejected_witness :
    ∃ e, upsertPrediction exSLock "u1" 1 0 0 = .error e :=
  C3_flag_status_lock_rejected exSLock "u1" 1 0 0 exM1fin exP11lock rfl rfl
    (Or.inr rfl)

/-! ## Claim C4 (what locking protects) -/

/-- **C4, counterexample.** `adminUpdatePrediction` performs no lock
check: on a prediction with `isLocked = true` (stored score 1:1) it
happily rewrites `homeScore` to 5, so locking does not make the score
fields immutable against the administrative path. -/
theorem C4_admin_edits_locked_counterexample :
    exP11lock.isLocked = true ∧ exP11lock.homeScore = 1 ∧
    ((adminUpdatePrediction exSLock 0 { homeScore := some 5 }).toOption.map
      (fun x => (x.2.homeScore, x.2.isLocked))) = some (5, true) := by
  exact ⟨rfl, rfl, rfl⟩

/-- **C4, amended.** Locking protects the scores against the user-facing
path only: `upsertPrediction` always fails on a prediction whose
persisted lock flag is set, while `adminUpdatePrediction` can rewrite the
scores of that same locked prediction (leaving the flag untouched). -/
theorem C4_lock_user_path_only (s : DBState) (uid : String) (mid : Nat)
    (hsc asc h2 : Int) (pid : Nat) (ex : PredictionRow)
    (hex : findPredByUserMatch s uid mid = some ex)
    (hpid : findPredById s pid = some ex)
    (hlock : ex.isLocked = true) :
    (∃ e, upsertPrediction s uid mid hsc asc = .error e) ∧
    (∃ s1 r, adminUpdatePrediction s pid { homeScore := some h2 } = .ok (s1, r) ∧
      r.homeScore = h2 ∧ r.isLocked = true) := by
  constructor
  · unfold upsertPrediction
    rcases hm : findMatch s mid with _ | m
    · simp only [hm]
      exact ⟨_, rfl⟩
    · simp only [hm]
      by_cases hst : m.status = MatchStatus.scheduled
      · rw [if_neg (by rw [hst]; simp)]
        simp only [hex, hlock]
        exact ⟨_, rfl⟩
      · rw [if_pos hst]
        exact ⟨_, rfl⟩
  · have hok : ∃ s1 r,
        adminUpdatePrediction s pid { homeScore := some h2 } = .ok (s1, r) := by
      unfold adminUpdatePrediction
      simp only [hpid]
      exact ⟨_, _, rfl⟩
    obtain ⟨s1, r, hok⟩ := hok
    obtain ⟨ex2, hex2, hr, _, _, _, _⟩ := adminUpdate_ok_inv hok
    have hexeq : ex2 = ex := by
      rw [hpid] at hex2
      exact (Option.some.inj hex2).symm
    subst hexeq
    refine ⟨s1, r, hok, ?_, ?_⟩
    · rw [hr]
      rfl
    · rw [hr]
      show ex2.isLocked = true
      exact hlock

/-- Witness for the amended C4 at the locked prediction of `exSLock`. -/
theorem C4_lock_user_path_only_witness :
    (∃ e, upsertPrediction exSLock "u1" 1 4 4 = .error e) ∧
    (∃ s1 r, adminUpdatePrediction exSLock 0 { homeScore := some 5 } =
        .ok (s1, r) ∧ r.homeScore = 5 ∧ r.isLocked = true) :=
  C4_lock_user_path_only exSLock "u1" 1 4 4 5 0 exP11lock rfl rfl rfl

/-! ## Claim C5 (frame of a successful submission) -/

/-- **C5, counterexample.** A successful resubmission does not preserve
`pointsEarned`: on a prediction that carried 3 points (set
administratively while the fixture was still scheduled) the update writes
`pointsEarned = null` — token of the spread `predictionData` object — with
no compensating change to `totalPoints` (which stays 3 while the sum of
earned points drops to 0). -/
theorem C5_resets_points_counterexample :
    exSPts.preds.map (fun p => p.pointsEarned) = [some 3] ∧
    ((upsertPrediction exSPts "u1" 1 2 2).toOption.map (fun x =>
      (x.2.pointsEarned, x.1.totals "u1",
       x.1.preds.map (fun p => p.pointsEarned)))) = some (none, 3, [none]) := by
  exact ⟨rfl, rfl⟩

/-- **C5, amended.** A successful `upsertPrediction` leaves `totalPoints`
and the match table unchanged and touches no other prediction row; the
written row carries the submitted scores, the derived outcome and
`pointsEarned = null` — which equals the row's previous value exactly when
that value was already null (the situation of the normal flow, where an
unfinished fixture's prediction is unscored). -/
theorem C5_success_frame (s : DBState) (uid : String) (mid : Nat)
    (hsc asc : Int) (s1 : DBState) (r : PredictionRow)
    (hok : upsertPrediction s uid mid hsc asc = .ok (s1, r)) :
    s1.totals = s.totals ∧ s1.matchRows = s.matchRows ∧
    r.pointsEarned = none ∧ r.homeScore = hsc ∧ r.awayScore = asc ∧
    r.result = calculateResult hsc asc ∧
    (∀ q ∈ s.preds, q.id ≠ r.id → q ∈ s1.preds) := by
  obtain ⟨m, hfm, hsch, hcase⟩ := upsert_ok_inv hok
  rcases hcase with ⟨ex, hex, hlock, hr, hs1⟩ | ⟨hnone, hr, hs1⟩
  · subst hs1
    refine ⟨rfl, rfl, by rw [hr]; rfl, by rw [hr]; rfl, by rw [hr]; rfl,
      by rw [hr]; rfl, ?_⟩
    intro q hq hqid
    have hrid : r.id = ex.id := by rw [hr]; rfl
    have hfix : (fun p : PredictionRow =>
        if p.id == ex.id then upsertApply hsc asc p else p) q = q := by
      have hne : (q.id == ex.id) = false := by
        simp only [beq_eq_false_iff_ne, ne_eq]
        rw [← hrid]
        exact hqid
      simp only [hne, Bool.false_eq_true, if_false]
    rw [← hfix]
    exact List.mem_map_of_mem _ hq
  · subst hs1
    refine ⟨rfl, rfl, by rw [hr], by rw [hr], by rw [hr], by rw [hr], ?_⟩
    intro q hq _
    exact List.mem_append_left _ hq

/-- Witness for the amended C5: resubmitting 2:2 over the open 1:1
prediction. -/
theorem C5_success_frame_witness :
    ({ exS1 with preds := List.map (fun p =>
        if p.id == exP11.id then upsertApply 2 2 p else p) exS1.preds } :
      DBState).totals = exS1.totals ∧
    ({ exS1 with preds := List.map (fun p =>
        if p.id == exP11.id then upsertApply 2 2 p else p) exS1.preds } :
      DBState).matchRows = exS1.matchRows ∧
    (upsertApply 2 2 exP11).pointsEarned = none ∧
    (upsertApply 2 2 exP11).homeScore = 2 ∧
    (upsertApply 2 2 exP11).awayScore = 2 ∧
    (upsertApply 2 2 exP11).result = calculateResult 2 2 ∧
    (∀ q ∈ exS1.preds, q.id ≠ (upsertApply 2 2 exP11).id →
      q ∈ ({ exS1 with preds := List.map (fun p =>
        if p.id == exP11.id then upsertApply 2 2 p else p) exS1.preds } :
          DBState).preds) :=
  C5_success_frame exS1 "u1" 1 2 2 _ _ rfl

/-! ## Claim C6 (re-scoring double-counts) -/

lemma calc_totals_fresh (s : DBState) (mid : Nat) (mh ma : Int) (u : String) :
    ((s.preds.filter (fun p => p.matchId == mid)).foldl
      (scoreStep mh ma) s).totals u = s.totals u + freshPointsFor s mid mh ma u := by
  rw [foldl_scoreStep_totals]
  unfold freshPointsFor
  have hfe : s.preds.filter (fun a => a.userId == u && a.matchId == mid) =
      s.preds.filter (fun p => p.matchId == mid && p.userId == u) := by
    apply List.filter_congr
    intro a _
    exact Bool.and_comm _ _
  rw [List.filter_filter, hfe]
  simp only [predPoints]

lemma fresh_points_after_scoring (s : DBState) (mid : Nat) (mh ma : Int)
    (s1 : DBState)
    (hpreds1 : s1.preds = s.preds.map (fun p =>
      if p.matchId == mid then setPts (predPoints mh ma p) p else p))
    (u : String) :
    freshPointsFor s1 mid mh ma u = freshPointsFor s mid mh ma u := by
  unfold freshPointsFor
  rw [hpreds1]
  rw [List.filter_map]
  have hcomp : ((fun p : PredictionRow => p.matchId == mid && p.userId == u) ∘
      (fun p : PredictionRow =>
        if p.matchId == mid then setPts (predPoints mh ma p) p else p)) =
      fun p : PredictionRow => p.matchId == mid && p.userId == u := by
    funext p
    by_cases hc : p.matchId = mid <;> simp [Function.comp, hc, setPts]
  rw [hcomp, List.map_map]
  congr 1
  apply List.map_congr_left
  intro p _
  by_cases hc : p.matchId = mid <;> simp [Function.comp, hc, setPts, predPoints]

/-- **C6.** Running `calculatePointsForMatch` a second time on a fixture
that was already scored double-counts: both runs succeed, each run adds
the same freshly computed points to every affected user's `totalPoints`
(the per-user write being an unconditional `totalPoints += points`),
while the second run leaves every prediction's `pointsEarned` exactly as
the first run wrote it. -/
theorem C6_rescoring_double_counts (s : DBState) (mid : Nat) (m : MatchRow)
    (mh ma : Int)
    (hfm : findMatch s mid = some m) (hst : m.status = .finished)
    (hhs : m.homeScore = some mh) (has : m.awayScore = some ma)
    (hnd : (s.preds.map (fun p => p.id)).Nodup) :
    ∃ s1 n1, calculatePointsForMatch s mid = .ok (s1, n1) ∧
    ∃ s2 n2, calculatePointsForMatch s1 mid = .ok (s2, n2) ∧
      (∀ u, s1.totals u = s.totals u + freshPointsFor s mid mh ma u) ∧
      (∀ u, s2.totals u = s1.totals u + freshPointsFor s mid mh ma u) ∧
      s2.preds = s1.preds := by
  have hok1 : calculatePointsForMatch s mid =
      .ok ((s.preds.filter (fun x => x.matchId == mid)).foldl (scoreStep mh ma) s,
        (s.preds.filter (fun x => x.matchId == mid)).length) := by
    unfold calculatePointsForMatch
    simp only [hfm, hst, hhs, has]
    simp
  set s1 := (s.preds.filter (fun x => x.matchId == mid)).foldl (scoreStep mh ma) s
    with hs1def
  have hpreds1 : s1.preds = s.preds.map (fun p =>
      if p.matchId == mid then setPts (predPoints mh ma p) p else p) :=
    calc_preds_eq s mid mh ma hnd
  have hmr1 : s1.matchRows = s.matchRows := foldl_scoreStep_matchRows mh ma _ s
  have hfm1 : findMatch s1 mid = some m := by
    unfold findMatch
    rw [hmr1]
    exact hfm
  have hok2 : calculatePointsForMatch s1 mid =
      .ok ((s1.preds.filter (fun x => x.matchId == mid)).foldl (scoreStep mh ma) s1,
        (s1.preds.filter (fun x => x.matchId == mid)).length) := by
    unfold calculatePointsForMatch
    simp only [hfm1, hst, hhs, has]
    simp
  have hnd1 : (s1.preds.map (fun p => p.id)).Nodup := by
    rw [hpreds1]
    have hf : ∀ x : PredictionRow,
        ((fun p : PredictionRow => setPts (predPoints mh ma p) p) x).id = x.id :=
      fun x => rfl
    rw [map_ids_of_ite _ _ hf]
    exact hnd
  refine ⟨s1, _, hok1, _, _, hok2, ?_, ?_, ?_⟩
  · intro u
    exact calc_totals_fresh s mid mh ma u
  · intro u
    rw [calc_totals_fresh s1 mid mh ma u,
      fresh_points_after_scoring s mid mh ma s1 hpreds1 u]
  · rw [calc_preds_eq s1 mid mh ma hnd1, hpreds1]
    rw [List.map_map]
    apply List.map_congr_left
    intro p _
    by_cases hc : p.matchId = mid
    · simp [Function.comp, hc, setPts, predPoints]
    · simp [Function.comp, hc]

/-- Witness for C6 on the finished 2:1 fixture with the 1:1 and 2:1
predictions: the first run grants 0 and 3 points, the second adds the
same amounts again while both `pointsEarned` values stay put. -/
theorem C6_rescoring_double_counts_witness :
    ∃ s1 n1, calculatePointsForMatch exSFin 1 = .ok (s1, n1) ∧
    ∃ s2 n2, calculatePointsForMatch s1 1 = .ok (s2, n2) ∧
      (∀ u, s1.totals u = exSFin.totals u + freshPointsFor exSFin 1 2 1 u) ∧
      (∀ u, s2.totals u = s1.totals u + freshPointsFor exSFin 1 2 1 u) ∧
      s2.preds = s1.preds :=
  C6_rescoring_double_counts exSFin 1 exM1fin 2 1 rfl rfl rfl rfl (by decide)

/-! ## Claim C7 (administrative correction applies a compensating delta) -/

/-- **C7.** An `adminUpdatePrediction` call on an existing prediction
always succeeds, and the owning user's `totalPoints` moves by exactly
`(new ?? 0) - (old ?? 0)` when a `pointsEarned` value is provided that
differs from the stored one — a delta, never a blind overwrite — while an
omitted or unchanged `pointsEarned` leaves every total untouched; users
other than the owner are never affected. -/
theorem C7_admin_points_delta (s : DBState) (pid : Nat) (u : PredUpdates)
    (ex : PredictionRow) (hex : findPredById s pid = some ex) :
    ∃ s1 r, adminUpdatePrediction s pid u = .ok (s1, r) ∧
      ∀ v, s1.totals v = s.totals v +
        (if v = ex.userId then
          (match u.pointsEarned with
           | none => 0
           | some newVal =>
             if newVal = ex.pointsEarned then 0
             else newVal.getD 0 - ex.pointsEarned.getD 0)
         else 0) := by
  have hexists : ∃ s1 r, adminUpdatePrediction s pid u = .ok (s1, r) := by
    unfold adminUpdatePrediction
    simp only [hex]
    exact ⟨_, _, rfl⟩
  obtain ⟨s1, r, hok⟩ := hexists
  obtain ⟨ex2, hex2, hr, hpreds, hmr, hnext, htot⟩ := adminUpdate_ok_inv hok
  have hexeq : ex2 = ex := by
    rw [hex] at hex2
    exact (Option.some.inj hex2).symm
  subst hexeq
  refine ⟨s1, r, hok, ?_⟩
  intro v
  rw [htot v]
  congr 1
  rcases u.pointsEarned with _ | newVal
  · simp
  · by_cases hch : newVal = ex2.pointsEarned
    · simp [hch]
    · by_cases hv : v = ex2.userId
      · simp [hch, hv]
      · simp [hch, hv]

/-- Witness for C7: raising the stored 1 point to 3 adds exactly 2 to the
owner's total (the spec's literal scenario 4). -/
theorem C7_admin_points_delta_witness :
    ∃ s1 r, adminUpdatePrediction exSLock 0
        { pointsEarned := some (some 3) } = .ok (s1, r) ∧
      ∀ v, s1.totals v = exSLock.totals v +
        (if v = exP11lock.userId then
          (match ({ pointsEarned := some (some 3) } : PredUpdates).pointsEarned with
           | none => 0
           | some newVal =>
             if newVal = exP11lock.pointsEarned then 0
             else newVal.getD 0 - exP11lock.pointsEarned.getD 0)
         else 0) :=
  C7_admin_points_delta exSLock 0 { pointsEarned := some (some 3) } exP11lock rfl

/-! ## Claim C2 (the totals/sum invariant) -/

/-- **C2, counterexample.** The invariant fails on a state reachable by
the claim's own operations: submit 1:1, let an administrator set
`pointsEarned := 3` on the still-scheduled fixture's prediction (a
Zod-valid update), then resubmit 2:2.  The resubmission spreads
`pointsEarned: null` into the row with no compensating delta, leaving
`totalPoints = 3` against a point sum of 0. -/
theorem C2_totals_counterexample :
    Reachable exSBroken ∧ exSBroken.totals "u1" = 3 ∧
      sumPts "u1" exSBroken.preds = 0 := by
  have hval : validAdminUpdates { pointsEarned := some (some 3) } := by
    refine ⟨?_, ?_, ?_⟩
    · intro h hh
      exact absurd hh (by simp)
    · intro a ha
      exact absurd ha (by simp)
    · intro v k hv hk
      have hv2 : v = some (3 : Int) := (Option.some.inj hv).symm
      subst hv2
      have hk2 : (3 : Int) = k := Option.some.inj hk
      constructor <;> omega
  refine ⟨?_, rfl, rfl⟩
  apply Reachable.step _ _ (Reachable.step _ _ (Reachable.step _ _
    (Reachable.init exS0 ⟨rfl, rfl, by decide⟩)
    (Step.submit exS0 "u1" 1 1 1 exS1 exP11 rfl))
    (Step.adminUpdate exS1 0 { pointsEarned := some (some 3) } exSPts
      exP11p hval rfl))
    (Step.submit exSPts "u1" 1 2 2 exSBroken exP22 rfl)

/-- **C2, amended.** The invariant holds in every state reachable by the
core's operations provided administrative corrections change
`pointsEarned` only on predictions of already-finished fixtures (the
`ReachableG` discipline); without that proviso it fails (see the
counterexample): for every user, `totalPoints` equals the sum of the
non-null `pointsEarned` values over that user's predictions. -/
theorem C2_totals_invariant (s : DBState) (u : String) (h : ReachableG s) :
    s.totals u = sumPts u s.preds :=
  (ReachableG_Inv h).totalsEq u

/-- Witness for the amended C2 after a submission and a scored
fixture-finish: the total 3 equals the single prediction's 3 points. -/
theorem C2_totals_invariant_witness :
    exSscored.totals "u1" = sumPts "u1" exSscored.preds :=
  C2_totals_invariant exSscored "u1"
    (ReachableG.step _ _
      (ReachableG.step _ _ (ReachableG.init exS0 ⟨rfl, rfl, by decide⟩)
        (StepG.submit exS0 "u1" 1 2 1 exSsub exPsub rfl))
      (StepG.finishMatch exSsub 1 2 1 exSscored 1 exM1 rfl (by decide)
        (by constructor <;> omega) (by constructor <;> omega) rfl))

/-! ## Claim C9 (one row per (user, fixture); update-in-place) -/

/-- **C9.** In every reachable state the (userId, matchId) pairs of the
prediction rows are pairwise distinct — at most one prediction per user
per fixture — and a second `upsertPrediction` with identical scores,
issued right after a successful one while the fixture stays open, also
succeeds, returns the very same persisted row, and leaves the row ids of
the prediction table unchanged (update-in-place, never a duplicate). -/
theorem C9_unique_row_upsert (s : DBState) (h : Reachable s) :
    (s.preds.map (fun p => (p.userId, p.matchId))).Nodup ∧
    (∀ uid mid hsc asc s1 r1,
      upsertPrediction s uid mid hsc asc = .ok (s1, r1) →
      ∃ s2 r2, upsertPrediction s1 uid mid hsc asc = .ok (s2, r2) ∧
        r2 = r1 ∧
        s2.preds.map (fun p => p.id) = s1.preds.map (fun p => p.id)) := by
  have hs := Reachable_SInv h
  refine ⟨hs.pairsNodup, ?_⟩
  intro uid mid hsc asc s1 r1 hok
  have hs1 : SInv s1 := upsert_preserves_SInv hs hok
  obtain ⟨m, hfm, hsch, hcase⟩ := upsert_ok_inv hok
  have hr1props : r1 ∈ s1.preds ∧ r1.userId = uid ∧ r1.matchId = mid ∧
      r1.isLocked = false ∧ upsertApply hsc asc r1 = r1 ∧
      s1.matchRows = s.matchRows := by
    rcases hcase with ⟨ex, hex, hlock, hr, hds⟩ | ⟨hnone, hr, hds⟩
    · obtain ⟨hexmem, hexu, hexm⟩ := findPredByUserMatch_props hex
      subst hds
      refine ⟨?_, ?_, ?_, ?_, ?_, rfl⟩
      · have hfix : (fun p : PredictionRow =>
            if p.id == ex.id then upsertApply hsc asc p else p) ex = r1 := by
          rw [hr]
          simp
        rw [← hfix]
        exact List.mem_map_of_mem _ hexmem
      · rw [hr]
        exact hexu
      · rw [hr]
        exact hexm
      · rw [hr]
        rfl
      · rw [hr]
        rfl
    · subst hds
      refine ⟨?_, ?_, ?_, ?_, ?_, rfl⟩
      · exact List.mem_append_right _ (by rw [hr]; simp)
      · rw [hr]
      · rw [hr]
      · rw [hr]
      · rw [hr]
        rfl
  obtain ⟨hr1mem, hr1u, hr1m, hr1lock, hidem, hmr1⟩ := hr1props
  have hfm1 : findMatch s1 mid = some m := by
    unfold findMatch
    rw [hmr1]
    exact hfm
  have hr1sat : ((fun p : PredictionRow =>
      p.userId == uid && p.matchId == mid) r1) = true := by
    simp [hr1u, hr1m]
  have hfind1 : findPredByUserMatch s1 uid mid = some r1 := by
    rcases hf : findPredByUserMatch s1 uid mid with _ | y
    · exact absurd (List.find?_eq_none.mp hf r1 hr1mem hr1sat) (by simp)
    · obtain ⟨hymem, hyu, hym⟩ := findPredByUserMatch_props hf
      have hpair : (fun p : PredictionRow => (p.userId, p.matchId)) y =
          (fun p : PredictionRow => (p.userId, p.matchId)) r1 := by
        show (y.userId, y.matchId) = (r1.userId, r1.matchId)
        rw [hyu, hym, hr1u, hr1m]
      rw [List.inj_on_of_nodup_map hs1.pairsNodup hymem hr1mem hpair]
  refine ⟨{ s1 with preds := s1.preds.map (fun p =>
      if p.id == r1.id then upsertApply hsc asc p else p) },
    upsertApply hsc asc r1, ?_, hidem, ?_⟩
  · unfold upsertPrediction
    simp only [hfm1]
    rw [if_neg (by rw [hsch]; simp)]
    simp only [hfind1, hr1lock]
    rfl
  · dsimp only
    have hf : ∀ x : PredictionRow, (upsertApply hsc asc x).id = x.id :=
      fun x => rfl
    exact map_ids_of_ite _ _ hf s1.preds

/-- Witness for C9: the empty reachable store, then submitting 1:1 twice
for `u1` on fixture 1. -/
theorem C9_unique_row_upsert_witness :
    (exS0.preds.map (fun p => (p.userId, p.matchId))).Nodup ∧
    (∃ s2 r2, upsertPrediction exS1 "u1" 1 1 1 = .ok (s2, r2) ∧
      r2 = exP11 ∧
      s2.preds.map (fun p => p.id) = exS1.preds.map (fun p => p.id)) :=
  ⟨(C9_unique_row_upsert exS0 (Reachable.init exS0 ⟨rfl, rfl, by decide⟩)).1,
   (C9_unique_row_upsert exS0 (Reachable.init exS0 ⟨rfl, rfl, by decide⟩)).2
     "u1" 1 1 1 exS1 exP11 rfl⟩

/-! ## Claim C10 (group standings) -/

lemma standingLE_iff (a b : TeamStanding) :
    standingLE a b = true ↔ specStandingOrder a b := by
  unfold standingLE specStandingOrder
  by_cases h1 : a.points = b.points
  · by_cases h2 : a.goalDifference = b.goalDifference
    · simp [h1, h2]
      try omega
    · simp [h1, h2]
      try omega
  · simp [h1]
    try omega

lemma standingLE_trans : ∀ a b c : TeamStanding,
    standingLE a b → standingLE b c → standingLE a c := by
  intro a b c hab hbc
  rw [standingLE_iff] at hab hbc ⊢
  unfold specStandingOrder at hab hbc ⊢
  omega

lemma standingLE_total : ∀ a b : TeamStanding,
    (standingLE a b || standingLE b a) = true := by
  intro a b
  rw [Bool.or_eq_true, standingLE_iff, standingLE_iff]
  unfold specStandingOrder
  omega

lemma statStep_fields (t : Nat) (acc : TeamStanding) (m : MatchRow)
    (hne : ¬(m.homeTeamId = some t ∧ m.awayTeamId = some t)) :
    (statStep t acc m).teamId = acc.teamId ∧
    (statStep t acc m).won = acc.won + (if teamWonMatch t m then 1 else 0) ∧
    (statStep t acc m).drawn =
      acc.drawn + (if teamDrewMatch t m then 1 else 0) ∧
    (statStep t acc m).goalsFor = acc.goalsFor + teamGoalsFor t m ∧
    (statStep t acc m).goalsAgainst = acc.goalsAgainst + teamGoalsAgainst t m := by
  rcases hhs : m.homeScore with _ | mh <;> rcases has : m.awayScore with _ | ma
  · unfold statStep teamWonMatch teamDrewMatch teamGoalsFor teamGoalsAgainst
    rw [hhs]
    simp
  · unfold statStep teamWonMatch teamDrewMatch teamGoalsFor teamGoalsAgainst
    rw [hhs]
    simp
  · unfold statStep teamWonMatch teamDrewMatch teamGoalsFor teamGoalsAgainst
    rw [hhs, has]
    simp
  · by_cases hh : m.homeTeamId = some t
    · have hna : ¬(m.awayTeamId = some t) := fun ha => hne ⟨hh, ha⟩
      unfold statStep teamWonMatch teamDrewMatch teamGoalsFor teamGoalsAgainst
      rw [hhs, has]
      rcases lt_trichotomy mh ma with hlt | heq | hgt
      · simp [hh, hna, hlt, not_lt.mpr (le_of_lt hlt), ne_of_lt hlt]
      · simp [hh, hna, heq]
      · simp [hh, hna, hgt, not_lt.mpr (le_of_lt hgt), ne_of_gt hgt]
    · by_cases ha : m.awayTeamId = some t
      · unfold statStep teamWonMatch teamDrewMatch teamGoalsFor teamGoalsAgainst
        rw [hhs, has]
        rcases lt_trichotomy mh ma with hlt | heq | hgt
        · simp [hh, ha, hlt, not_lt.mpr (le_of_lt hlt), ne_of_lt hlt,
            ne_of_gt hlt]
        · simp [hh, ha, heq]
        · simp [hh, ha, hgt, not_lt.mpr (le_of_lt hgt), ne_of_gt hgt,
            ne_of_lt hgt]
      · unfold statStep teamWonMatch teamDrewMatch teamGoalsFor teamGoalsAgainst
        rw [hhs, has]
        simp [hh, ha]

lemma foldl_statStep_spec (t : Nat) (gm : List MatchRow)
    (hne : ∀ m ∈ gm, ¬(m.homeTeamId = some t ∧ m.awayTeamId = some t)) :
    ∀ acc : TeamStanding,
      (gm.foldl (statStep t) acc).teamId = acc.teamId ∧
      (gm.foldl (statStep t) acc).won =
        acc.won + (gm.countP (teamWonMatch t) : Int) ∧
      (gm.foldl (statStep t) acc).drawn =
        acc.drawn + (gm.countP (teamDrewMatch t) : Int) ∧
      (gm.foldl (statStep t) acc).goalsFor =
        acc.goalsFor + (gm.map (teamGoalsFor t)).sum ∧
      (gm.foldl (statStep t) acc).goalsAgainst =
        acc.goalsAgainst + (gm.map (teamGoalsAgainst t)).sum := by
  induction gm with
  | nil =>
    intro acc
    simp
  | cons m gm ih =>
    intro acc
    have hm := statStep_fields t acc m (hne m (by simp))
    have ihh := ih (fun x hx => hne x (by simp [hx])) (statStep t acc m)
    rw [List.foldl_cons]
    obtain ⟨i1, i2, i3, i4, i5⟩ := ihh
    obtain ⟨f1, f2, f3, f4, f5⟩ := hm
    refine ⟨by rw [i1, f1], ?_, ?_, ?_, ?_⟩
    · rw [i2, f2, List.countP_cons]
      by_cases hw : teamWonMatch t m <;> simp [hw] <;> omega
    · rw [i3, f3, List.countP_cons]
      by_cases hw : teamDrewMatch t m <;> simp [hw] <;> omega
    · rw [i4, f4, List.map_cons, List.sum_cons]
      ring
    · rw [i5, f5, List.map_cons, List.sum_cons]
      ring

lemma teamStanding_spec (tm : TeamRow) (gm : List MatchRow)
    (hne : ∀ m ∈ gm, ¬(m.homeTeamId = some tm.id ∧ m.awayTeamId = some tm.id)) :
    (teamStanding tm gm).teamId = tm.id ∧
    (teamStanding tm gm).points =
      3 * (gm.countP (teamWonMatch tm.id) : Int) +
        (gm.countP (teamDrewMatch tm.id) : Int) ∧
    (teamStanding tm gm).goalsFor = (gm.map (teamGoalsFor tm.id)).sum ∧
    (teamStanding tm gm).goalsAgainst = (gm.map (teamGoalsAgainst tm.id)).sum ∧
    (teamStanding tm gm).goalDifference =
      (teamStanding tm gm).goalsFor - (teamStanding tm gm).goalsAgainst := by
  obtain ⟨h1, h2, h3, h4, h5⟩ :=
    foldl_statStep_spec tm.id gm hne (initialStanding tm.id)
  simp only [initialStanding] at h1 h2 h3 h4 h5
  unfold teamStanding
  dsimp only
  simp only [initialStanding]
  refine ⟨h1, ?_, ?_, ?_, ?_⟩
  · rw [h2, h3]
    ring
  · rw [h4]
    ring
  · rw [h5]
    ring
  · trivial

/-- **C10.** `getGroupStandings`, applied to the teams carrying a group
letter, replays the finished group-stage fixtures it selects (with both
participants distinct): each returned entry belongs to a team of the
group and carries `3 × wins + 1 × draws` points and the accumulated
goals-for / goals-against (goal difference being their difference); the
returned list is a permutation of the per-team entries, it is sorted by
points descending, then goal difference descending, then goals-for
descending, and any two entries tied under that order keep their
original relative order (stable sort). -/
theorem C10_group_standings (teams : List TeamRow) (matchRows : List MatchRow)
    (g : String)
    (hne : ∀ m ∈ groupFinishedMatches teams matchRows g,
      m.homeTeamId ≠ m.awayTeamId ∨ m.homeTeamId = none) :
    (getGroupStandings teams matchRows g).Perm
      ((getTeamsByGroup teams g).map
        (fun t => teamStanding t (groupFinishedMatches teams matchRows g))) ∧
    List.Pairwise specStandingOrder (getGroupStandings teams matchRows g) ∧
    (∀ a b, specStandingOrder a b → specStandingOrder b a →
      [a, b].Sublist ((getTeamsByGroup teams g).map
        (fun t => teamStanding t (groupFinishedMatches teams matchRows g))) →
      [a, b].Sublist (getGroupStandings teams matchRows g)) ∧
    (∀ st ∈ getGroupStandings teams matchRows g,
      ∃ t ∈ getTeamsByGroup teams g, st.teamId = t.id ∧
        st.points =
          3 * ((groupFinishedMatches teams matchRows g).countP
              (teamWonMatch t.id) : Int) +
            ((groupFinishedMatches teams matchRows g).countP
              (teamDrewMatch t.id) : Int) ∧
        st.goalsFor = ((groupFinishedMatches teams matchRows g).map
          (teamGoalsFor t.id)).sum ∧
        st.goalsAgainst = ((groupFinishedMatches teams matchRows g).map
          (teamGoalsAgainst t.id)).sum ∧
        st.goalDifference = st.goalsFor - st.goalsAgainst) := by
  have hout : getGroupStandings teams matchRows g =
      ((getTeamsByGroup teams g).map
        (fun t => teamStanding t (groupFinishedMatches teams matchRows g))).mergeSort
        standingLE := rfl
  have hperm : (getGroupStandings teams matchRows g).Perm
      ((getTeamsByGroup teams g).map
        (fun t => teamStanding t (groupFinishedMatches teams matchRows g))) := by
    rw [hout]
    exact List.mergeSort_perm _ _
  refine ⟨hperm, ?_, ?_, ?_⟩
  · rw [hout]
    have hsorted := List.sorted_mergeSort
      (fun a b c => standingLE_trans a b c) (fun a b => standingLE_total a b)
      ((getTeamsByGroup teams g).map
        (fun t => teamStanding t (groupFinishedMatches teams matchRows g)))
    exact hsorted.imp (fun hab => (standingLE_iff _ _).mp hab)
  · intro a b hab hba hsub
    rw [hout]
    apply List.sublist_mergeSort (fun a b c => standingLE_trans a b c)
      (fun a b => standingLE_total a b)
    · exact List.pairwise_pair.mpr ((standingLE_iff a b).mpr hab)
    · exact hsub
  · intro st hst
    have hmem : st ∈ (getTeamsByGroup teams g).map
        (fun t => teamStanding t (groupFinishedMatches teams matchRows g)) :=
      hperm.mem_iff.mp hst
    rcases List.mem_map.mp hmem with ⟨t, ht, hte⟩
    have hnet : ∀ m ∈ groupFinishedMatches teams matchRows g,
        ¬(m.homeTeamId = some t.id ∧ m.awayTeamId = some t.id) := by
      intro m hm hc
      rcases hne m hm with hd | hnone
      · exact hd (hc.1.trans hc.2.symm)
      · rw [hnone] at hc
        exact absurd hc.1 (by simp)
    obtain ⟨h1, h2, h3, h4, h5⟩ :=
      teamStanding_spec t (groupFinishedMatches teams matchRows g) hnet
    exact ⟨t, ht, by rw [← hte] at *; exact ⟨h1, h2, h3, h4, h5⟩⟩

/-- Witness for C10 on group A with three finished fixtures (10 beat 11
2:0, 11 drew 12 1:1, 12 beat 10 1:0). -/
theorem C10_group_standings_witness :
    (getGroupStandings [exTA, exTB, exTC]
      [exGM 1 10 11 2 0, exGM 2 11 12 1 1, exGM 3 10 12 0 1] "A").Perm
      ((getTeamsByGroup [exTA, exTB, exTC] "A").map
        (fun t => teamStanding t (groupFinishedMatches [exTA, exTB, exTC]
          [exGM 1 10 11 2 0, exGM 2 11 12 1 1, exGM 3 10 12 0 1] "A"))) ∧
    List.Pairwise specStandingOrder
      (getGroupStandings [exTA, exTB, exTC]
        [exGM 1 10 11 2 0, exGM 2 11 12 1 1, exGM 3 10 12 0 1] "A") ∧
    (∀ a b, specStandingOrder a b → specStandingOrder b a →
      [a, b].Sublist ((getTeamsByGroup [exTA, exTB, exTC] "A").map
        (fun t => teamStanding t (groupFinishedMatches [exTA, exTB, exTC]
          [exGM 1 10 11 2 0, exGM 2 11 12 1 1, exGM 3 10 12 0 1] "A"))) →
      [a, b].Sublist (getGroupStandings [exTA, exTB, exTC]
        [exGM 1 10 11 2 0, exGM 2 11 12 1 1, exGM 3 10 12 0 1] "A")) ∧
    (∀ st ∈ getGroupStandings [exTA, exTB, exTC]
        [exGM 1 10 11 2 0, exGM 2 11 12 1 1, exGM 3 10 12 0 1] "A",
      ∃ t ∈ getTeamsByGroup [exTA, exTB, exTC] "A", st.teamId = t.id ∧
        st.points =
          3 * ((groupFinishedMatches [exTA, exTB, exTC]
              [exGM 1 10 11 2 0, exGM 2 11 12 1 1, exGM 3 10 12 0 1] "A").countP
              (teamWonMatch t.id) : Int) +
            ((groupFinishedMatches [exTA, exTB, exTC]
              [exGM 1 10 11 2 0, exGM 2 11 12 1 1, exGM 3 10 12 0 1] "A").countP
              (teamDrewMatch t.id) : Int) ∧
        st.goalsFor = ((groupFinishedMatches [exTA, exTB, exTC]
          [exGM 1 10 11 2 0, exGM 2 11 12 1 1, exGM 3 10 12 0 1] "A").map
          (teamGoalsFor t.id)).sum ∧
        st.goalsAgainst = ((groupFinishedMatches [exTA, exTB, exTC]
          [exGM 1 10 11 2 0, exGM 2 11 12 1 1, exGM 3 10 12 0 1] "A").map
          (teamGoalsAgainst t.id)).sum ∧
        st.goalDifference = st.goalsFor - st.goalsAgainst) :=
  C10_group_standings [exTA, exTB, exTC]
    [exGM 1 10 11 2 0, exGM 2 11 12 1 1, exGM 3 10 12 0 1] "A" (by decide)

end WC2026
